import Mathlib

/-!
# gortsplib: dial helpers and the MPEG-TS example encoder

A shallow embedding of `dialer.go` (`Dialer.DialRead`, `Dialer.DialPublish`) and of
`examples/client-read-h264-save-to-disk/mpegtsencoder.go` (`mpegtsEncoder.encode`).

The dial helpers drive a `ConnClient`, whose code is outside the embedded sources.
Every call the helpers make on it is recorded, in order, in a trace of `Call`s, and
the answer to each call is given by a `World`, which may depend on the whole
trace of calls made before it.
-/

namespace Gortsplib

/-! ## Data model -/

/-- Go `error` values, identified by their message. -/
abbrev Error := String

/-- The type `StreamProtocol` is an integer enumeration in Go. -/
abbrev StreamProtocol := Int

/-- The constant `StreamProtocolUDP`; its declaration is not part of the embedded sources,
the dialer only compares `proto` against it. -/
def StreamProtocolUDP : StreamProtocol := 0

/-- The constant `StreamProtocolTCP`; its declaration is not part of the embedded sources. -/
def StreamProtocolTCP : StreamProtocol := 1

/-- The type `TransportMode` is an integer enumeration in Go. -/
abbrev TransportMode := Int

/-- The constant `TransportModePlay`; its declaration is not part of the embedded sources. -/
def TransportModePlay : TransportMode := 0

/-- The constant `TransportModeRecord`; its declaration is not part of the embedded sources. -/
def TransportModeRecord : TransportMode := 1

/-- The type `base.StatusCode` is an integer in Go. -/
abbrev StatusCode := Int

/-- The constant `base.StatusMovedPermanently` (RFC 2326: 301 Moved Permanently). -/
def StatusMovedPermanently : StatusCode := 301

/-- The constant `base.StatusUseProxy` (RFC 2326: 305 Use Proxy). -/
def StatusUseProxy : StatusCode := 305

/-- A parsed `base.URL`; the dialer only reads its host. -/
structure URL where
  Scheme : String
  Host : String
  Path : String
  deriving DecidableEq, Repr

/-- A track, as returned by DESCRIBE or passed to ANNOUNCE. -/
structure Track where
  Id : Int
  Media : String
  deriving DecidableEq, Repr

/-- The Go type `Tracks` is a slice of tracks. -/
abbrev Tracks := List Track

/-- A `base.Header`: a map from header names to lists of values. -/
abbrev Header := List (String × List String)

/-- Go map indexing `h[key]`: the values stored under `key`, the nil slice when absent. -/
def Header.get (h : Header) (key : String) : List String :=
  (h.lookup key).getD []

/-- The part of a `base.Response` that the dialer reads. -/
structure Response where
  StatusCode : StatusCode
  Header : Header
  deriving DecidableEq, Repr

/-- A `*ConnClient`, identified by the position in the trace of the `NewConnClient` call
that allocated it. -/
abbrev ConnClient := Nat

/-- The struct `ConnClientConf` as filled in by the dialer. Function values are identified by
an optional handle (`none` is the nil function). -/
structure ConnClientConf where
  Host : String
  ReadTimeout : Int
  WriteTimeout : Int
  ReadBufferCount : Int
  DialTimeout : Option Nat
  ListenPacket : Option Nat
  deriving DecidableEq, Repr

/-- The struct `Dialer`. -/
structure Dialer where
  ReadTimeout : Int
  WriteTimeout : Int
  ReadBufferCount : Int
  DialTimeout : Option Nat
  ListenPacket : Option Nat
  deriving DecidableEq, Repr

/-- The calls that the dial helpers make on the connection layer, with their arguments. -/
inductive Call where
  | NewConnClient (conf : ConnClientConf)
  | Options (c : ConnClient) (u : URL)
  | Describe (c : ConnClient) (u : URL)
  | Announce (c : ConnClient) (u : URL) (tracks : Tracks)
  | SetupUDP (c : ConnClient) (u : URL) (mode : TransportMode) (track : Track)
      (rtpPort rtcpPort : Int)
  | SetupTCP (c : ConnClient) (u : URL) (mode : TransportMode) (track : Track)
  | Play (c : ConnClient) (u : URL)
  | Record (c : ConnClient) (u : URL)
  | Close (c : ConnClient)
  deriving DecidableEq, Repr

/-- The collaborators of the dialer: the URL parser and the connection layer with the server
behind it. Each answer may depend on the trace of the calls made so far (first argument).
`none` stands for a nil error. -/
structure World where
  ParseURL : String → Except Error URL
  NewConnClient : List Call → ConnClientConf → Option Error
  Options : List Call → ConnClient → URL → Option Error
  Describe : List Call → ConnClient → URL → Except Error (Tracks × Response)
  Announce : List Call → ConnClient → URL → Tracks → Option Error
  SetupUDP : List Call → ConnClient → URL → TransportMode → Track → Int → Int → Option Error
  SetupTCP : List Call → ConnClient → URL → TransportMode → Track → Option Error
  Play : List Call → ConnClient → URL → Option Error
  Record : List Call → ConnClient → URL → Option Error

/-- What a dial helper hands back: `(conn, nil)`, `(nil, err)`, a run-time panic
(index out of range), or no return within the recursion budget. -/
inductive Result where
  | conn (c : ConnClient)
  | error (e : Error)
  | panic
  | diverge
  deriving DecidableEq, Repr

/-! ## dialer.go -/

/-- The configuration passed to `NewConnClient` by both dial helpers. -/
def Dialer.conf (d : Dialer) (u : URL) : ConnClientConf :=
  { Host := u.Host
    ReadTimeout := d.ReadTimeout
    WriteTimeout := d.WriteTimeout
    ReadBufferCount := d.ReadBufferCount
    DialTimeout := d.DialTimeout
    ListenPacket := d.ListenPacket }

/-- The loop `for _, track := range tracks { conn.SetupUDP(u, mode, track, 0, 0) ... }`:
stops at the first error and hands it back together with the trace. -/
def setupUDPLoop (w : World) (conn : ConnClient) (u : URL) (mode : TransportMode) :
    Tracks → List Call → Option Error × List Call
  | [], h => (none, h)
  | track :: rest, h =>
    match w.SetupUDP h conn u mode track 0 0 with
    | some err => (some err, h ++ [Call.SetupUDP conn u mode track 0 0])
    | none => setupUDPLoop w conn u mode rest (h ++ [Call.SetupUDP conn u mode track 0 0])

/-- The loop `for _, track := range tracks { conn.SetupTCP(u, mode, track) ... }`:
stops at the first error and hands it back together with the trace. -/
def setupTCPLoop (w : World) (conn : ConnClient) (u : URL) (mode : TransportMode) :
    Tracks → List Call → Option Error × List Call
  | [], h => (none, h)
  | track :: rest, h =>
    match w.SetupTCP h conn u mode track with
    | some err => (some err, h ++ [Call.SetupTCP conn u mode track])
    | none => setupTCPLoop w conn u mode rest (h ++ [Call.SetupTCP conn u mode track])

/-- The final `conn.Play(u)` of `DialRead` with its error path. -/
def playStep (w : World) (conn : ConnClient) (u : URL) (h : List Call) : Result × List Call :=
  match w.Play h conn u with
  | some err => (Result.error err, h ++ [Call.Play conn u, Call.Close conn])
  | none => (Result.conn conn, h ++ [Call.Play conn u])

/-- Lines 85-109 of `DialRead`: the SETUP loops and PLAY. A failing `SetupUDP` returns the
error at once; a failing `SetupTCP` closes the connection first. -/
def readSetupPlay (w : World) (conn : ConnClient) (u : URL) (proto : StreamProtocol)
    (tracks : Tracks) (h : List Call) : Result × List Call :=
  if proto = StreamProtocolUDP then
    match setupUDPLoop w conn u TransportModePlay tracks h with
    | (some err, h1) => (Result.error err, h1)
    | (none, h1) => playStep w conn u h1
  else
    match setupTCPLoop w conn u TransportModePlay tracks h with
    | (some err, h1) => (Result.error err, h1 ++ [Call.Close conn])
    | (none, h1) => playStep w conn u h1

/-- The method `Dialer.DialRead`. The first argument bounds the number of nested invocations
(the Go function calls itself on a redirect); `h` is the trace of calls made so far. -/
def DialRead (w : World) (d : Dialer) :
    Nat → String → StreamProtocol → List Call → Result × List Call
  | 0, _, _, h => (Result.diverge, h)
  | fuel + 1, address, proto, h =>
    match w.ParseURL address with
    | .error err => (Result.error err, h)
    | .ok u =>
      match w.NewConnClient h (d.conf u) with
      | some err => (Result.error err, h ++ [Call.NewConnClient (d.conf u)])
      | none =>
        let conn : ConnClient := h.length
        let h1 := h ++ [Call.NewConnClient (d.conf u)]
        match w.Options h1 conn u with
        | some err => (Result.error err, h1 ++ [Call.Options conn u, Call.Close conn])
        | none =>
          let h2 := h1 ++ [Call.Options conn u]
          match w.Describe h2 conn u with
          | .error err => (Result.error err, h2 ++ [Call.Describe conn u, Call.Close conn])
          | .ok (tracks, res) =>
            let h3 := h2 ++ [Call.Describe conn u]
            if res.StatusCode ≥ StatusMovedPermanently ∧ res.StatusCode ≤ StatusUseProxy then
              match res.Header.get "Location" with
              | [] => (Result.panic, h3 ++ [Call.Close conn])
              | location :: _ => DialRead w d fuel location proto (h3 ++ [Call.Close conn])
            else
              readSetupPlay w conn u proto tracks h3

/-- The final `conn.Record(u)` of `DialPublish` with its error path. -/
def recordStep (w : World) (conn : ConnClient) (u : URL) (h : List Call) : Result × List Call :=
  match w.Record h conn u with
  | some err => (Result.error err, h ++ [Call.Record conn u, Call.Close conn])
  | none => (Result.conn conn, h ++ [Call.Record conn u])

/-- Lines 143-168 of `DialPublish`: the SETUP loops and RECORD; every error path closes the
connection. -/
def publishSetupRecord (w : World) (conn : ConnClient) (u : URL) (proto : StreamProtocol)
    (tracks : Tracks) (h : List Call) : Result × List Call :=
  if proto = StreamProtocolUDP then
    match setupUDPLoop w conn u TransportModeRecord tracks h with
    | (some err, h1) => (Result.error err, h1 ++ [Call.Close conn])
    | (none, h1) => recordStep w conn u h1
  else
    match setupTCPLoop w conn u TransportModeRecord tracks h with
    | (some err, h1) => (Result.error err, h1 ++ [Call.Close conn])
    | (none, h1) => recordStep w conn u h1

/-- The method `Dialer.DialPublish`; `h` is the trace of calls made so far. -/
def DialPublish (w : World) (d : Dialer) (address : String) (proto : StreamProtocol)
    (tracks : Tracks) (h : List Call) : Result × List Call :=
  match w.ParseURL address with
  | .error err => (Result.error err, h)
  | .ok u =>
    match w.NewConnClient h (d.conf u) with
    | some err => (Result.error err, h ++ [Call.NewConnClient (d.conf u)])
    | none =>
      let conn : ConnClient := h.length
      let h1 := h ++ [Call.NewConnClient (d.conf u)]
      match w.Options h1 conn u with
      | some err => (Result.error err, h1 ++ [Call.Options conn u, Call.Close conn])
      | none =>
        let h2 := h1 ++ [Call.Options conn u]
        match w.Announce h2 conn u tracks with
        | some err => (Result.error err, h2 ++ [Call.Announce conn u tracks, Call.Close conn])
        | none => publishSetupRecord w conn u proto tracks (h2 ++ [Call.Announce conn u tracks])

/-- The variable `DefaultDialer`: the zero value of `Dialer`. -/
def DefaultDialer : Dialer :=
  { ReadTimeout := 0, WriteTimeout := 0, ReadBufferCount := 0,
    DialTimeout := none, ListenPacket := none }

/-! ## examples/client-read-h264-save-to-disk/mpegtsencoder.go -/

/-- A NALU: a Go byte slice, each byte a number below 256. -/
abbrev NALU := List Nat

/-- The constant `h264.NALUTypeIDR`. -/
def NALUTypeIDR : Nat := 5

/-- The constant `h264.NALUTypeSPS`. -/
def NALUTypeSPS : Nat := 7

/-- The constant `h264.NALUTypePPS`. -/
def NALUTypePPS : Nat := 8

/-- The constant `h264.NALUTypeAccessUnitDelimiter`. -/
def NALUTypeAccessUnitDelimiter : Nat := 9

/-- The fields of `gortsplib.TrackConfigH264` that the encoder reads. -/
structure TrackConfigH264 where
  SPS : NALU
  PPS : NALU
  deriving DecidableEq, Repr

/-- The two values of `astits.PTSDTSIndicator` that the encoder uses. -/
inductive PTSDTSIndicator where
  | OnlyPTS | BothPresent
  deriving DecidableEq, Repr

/-- The `astits.MuxerData` built by `encode`, flattened. -/
structure MuxerData where
  PID : Nat
  RandomAccessIndicator : Bool
  StreamID : Nat
  MarkerBits : Nat
  PTSDTSIndicator : PTSDTSIndicator
  DTS : Option Int
  PTS : Option Int
  Data : List Nat
  deriving DecidableEq, Repr

/-- The calls `encode` makes on its collaborators. -/
inductive EncCall where
  | EncodeAnnexB (nalus : List NALU)
  | Feed (pts : Int)
  | WriteData (d : MuxerData)
  deriving DecidableEq, Repr

/-- The collaborators of `encode`: the Annex-B encoder, the DTS estimator (with its state
`δ`), the muxer (whose answer may depend on the packets written before) and the conversion
`int64(d.Seconds() * 90000)` of a duration into a 90 kHz clock value. -/
structure Codec (δ : Type) where
  EncodeAnnexB : List NALU → Except Error (List Nat)
  Feed : δ → Int → Int × δ
  WriteData : List MuxerData → MuxerData → Option Error
  clock90k : Int → Int

/-- The fields of `mpegtsEncoder` that `encode` reads or writes; `written` lists the packets
handed to the muxer so far. -/
structure mpegtsEncoder (δ : Type) where
  h264Conf : TrackConfigH264
  dtsEst : δ
  firstPacketWritten : Bool
  startPTS : Int
  written : List MuxerData

/-- How `encode` ends: a nil error, an error, or a run-time panic (`nalu[0]` on an empty
NALU). -/
inductive EncResult where
  | ok
  | error (e : Error)
  | panic
  deriving DecidableEq, Repr

/-- The closure `idrPresent` of `encode`: `none` is the panic of `nalu[0]` on an empty
NALU. -/
def idrPresent : List NALU → Option Bool
  | [] => some false
  | [] :: _ => none
  | (b :: _) :: rest =>
    if b &&& 0x1F = NALUTypeIDR then some true else idrPresent rest

/-- The filtering loop of `encode` (lines 80-94), started from the accumulated
`filteredNALUs`; `none` is the panic of `nalu[0]` on an empty NALU. -/
def filterLoop (conf : TrackConfigH264) : List NALU → List NALU → Option (List NALU)
  | [], filteredNALUs => some filteredNALUs
  | [] :: _, _ => none
  | (b :: bs) :: rest, filteredNALUs =>
    let typ := b &&& 0x1F
    if typ = NALUTypeSPS ∨ typ = NALUTypePPS ∨ typ = NALUTypeAccessUnitDelimiter then
      filterLoop conf rest filteredNALUs
    else if typ = NALUTypeIDR then
      filterLoop conf rest ((filteredNALUs ++ [conf.SPS, conf.PPS]) ++ [b :: bs])
    else
      filterLoop conf rest (filteredNALUs ++ [b :: bs])

/-- The packet built on lines 105-131 of `encode`. -/
def buildPacket (clock90k : Int → Int) (idr : Bool) (pts dts : Int) (enc : List Nat) :
    MuxerData :=
  if dts = pts then
    { PID := 256, RandomAccessIndicator := idr, StreamID := 224, MarkerBits := 2,
      PTSDTSIndicator := PTSDTSIndicator.OnlyPTS,
      DTS := none, PTS := some (clock90k pts), Data := enc }
  else
    { PID := 256, RandomAccessIndicator := idr, StreamID := 224, MarkerBits := 2,
      PTSDTSIndicator := PTSDTSIndicator.BothPresent,
      DTS := some (clock90k dts), PTS := some (clock90k pts), Data := enc }

/-- Wrap-around of Go's signed 64-bit arithmetic (`time.Duration` is an `int64`). -/
def wrapInt64 (v : Int) : Int :=
  (v + 2 ^ 63) % 2 ^ 64 - 2 ^ 63

/-- Lines 59-62 of `encode`: the first call records its PTS as the start of the stream. -/
def markFirstPacket {δ : Type} (e : mpegtsEncoder δ) (pts : Int) : mpegtsEncoder δ :=
  if e.firstPacketWritten then e else { e with firstPacketWritten := true, startPTS := pts }

/-- Lines 96-137 of `encode`: the Annex-B encoding of the filtered NALUs, the timestamps and
the write of the TS packet. -/
def writePacket {δ : Type} (x : Codec δ) (e : mpegtsEncoder δ) (idrPresent : Bool)
    (filteredNALUs : List NALU) (pts : Int) : EncResult × mpegtsEncoder δ × List EncCall :=
  match x.EncodeAnnexB filteredNALUs with
  | .error err => (EncResult.error err, e, [EncCall.EncodeAnnexB filteredNALUs])
  | .ok enc =>
    let pts1 := wrapInt64 (pts - e.startPTS)
    let fed := x.Feed e.dtsEst pts1
    let d := buildPacket x.clock90k idrPresent pts1 fed.1 enc
    let e2 : mpegtsEncoder δ := { e with dtsEst := fed.2, written := e.written ++ [d] }
    let calls := [EncCall.EncodeAnnexB filteredNALUs, EncCall.Feed pts1, EncCall.WriteData d]
    match x.WriteData e.written d with
    | some err => (EncResult.error err, e2, calls)
    | none => (EncResult.ok, e2, calls)

/-- The method `mpegtsEncoder.encode`: the result, the encoder afterwards, and the calls made on the
collaborators, in order. -/
def encode {δ : Type} (x : Codec δ) (e : mpegtsEncoder δ) (nalus : List NALU) (pts : Int) :
    EncResult × mpegtsEncoder δ × List EncCall :=
  let e1 := markFirstPacket e pts
  match idrPresent nalus with
  | none => (EncResult.panic, e1, [])
  | some idr =>
    match filterLoop e1.h264Conf nalus [[NALUTypeAccessUnitDelimiter, 240]] with
    | none => (EncResult.panic, e1, [])
    | some filteredNALUs => writePacket x e1 idr filteredNALUs pts

/-- The NALU type of a non-empty NALU: the low five bits of its first byte. -/
def naluType (nalu : NALU) : Nat :=
  nalu.headD 0 &&& 0x1F

/-- What one input NALU contributes to the list handed to the Annex-B encoder. -/
def keptNALUs (conf : TrackConfigH264) (nalu : NALU) : List NALU :=
  if naluType nalu = 7 ∨ naluType nalu = 8 ∨ naluType nalu = 9 then []
  else if naluType nalu = 5 then [conf.SPS, conf.PPS, nalu]
  else [nalu]

/-- A sample Annex-B encoder: a `0, 0, 0, 1` start code before every NALU. -/
def sampleAnnexB (nalus : List NALU) : Except Error (List Nat) :=
  .ok (nalus.foldr (fun n acc => [0, 0, 0, 1] ++ n ++ acc) [])

/-- A sample set of collaborators: the DTS estimator hands the PTS back and counts the
calls, the muxer accepts every packet. -/
def sampleCodec : Codec Nat :=
  { EncodeAnnexB := sampleAnnexB
    Feed := fun n pts => (pts, n + 1)
    WriteData := fun _ _ => none
    clock90k := fun d => d * 90000 / 1000000000 }

/-- A fresh encoder, as allocated by `newMPEGTSEncoder`, with sample parameter sets. -/
def sampleEncoder : mpegtsEncoder Nat :=
  { h264Conf := { SPS := [103, 66], PPS := [104, 206] }
    dtsEst := 0
    firstPacketWritten := false
    startPTS := 0
    written := [] }

/-! ## Concrete worlds used in the examples -/

/-- A parser accepting exactly the addresses `rtsp://a/s`, `rtsp://b/s`. -/
def parseAB (address : String) : Except Error URL :=
  if address = "rtsp://a/s" then .ok { Scheme := "rtsp", Host := "a", Path := "/s" }
  else if address = "rtsp://b/s" then .ok { Scheme := "rtsp", Host := "b", Path := "/s" }
  else .error "invalid URL"

/-- Number of DESCRIBE calls in a trace. -/
def describeCount (h : List Call) : Nat :=
  (h.filter fun c => match c with | Call.Describe _ _ => true | _ => false).length

/-- Two sample tracks. -/
def sampleTracks : Tracks := [{ Id := 0, Media := "video" }, { Id := 1, Media := "audio" }]

/-- A server that answers the first `n` DESCRIBE requests with `code` and a `Location` header
pointing at `rtsp://b/s`, every later DESCRIBE with 200 and two tracks, and accepts every
other request. -/
def redirectingWorld (n : Nat) (code : StatusCode) : World :=
  { ParseURL := parseAB
    NewConnClient := fun _ _ => none
    Options := fun _ _ _ => none
    Describe := fun h _ _ =>
      if describeCount h < n then
        .ok ([], { StatusCode := code, Header := [("Location", ["rtsp://b/s"])] })
      else .ok (sampleTracks, { StatusCode := 200, Header := [] })
    Announce := fun _ _ _ _ => none
    SetupUDP := fun _ _ _ _ _ _ _ => none
    SetupTCP := fun _ _ _ _ _ => none
    Play := fun _ _ _ => none
    Record := fun _ _ _ => none }

/-- The URL that `parseAB` gives for `rtsp://a/s`. -/
def urlA : URL := { Scheme := "rtsp", Host := "a", Path := "/s" }

/-- The URL that `parseAB` gives for `rtsp://b/s`. -/
def urlB : URL := { Scheme := "rtsp", Host := "b", Path := "/s" }

/-- A server that accepts every request and describes two tracks with status 200. -/
def acceptingWorld : World := redirectingWorld 0 200

/-- A server that answers every DESCRIBE with 302 and a `Location` header whose value
`http://c/x` the parser `parseAB` rejects, and accepts every other request. -/
def badLocationWorld : World :=
  { ParseURL := parseAB
    NewConnClient := fun _ _ => none
    Options := fun _ _ _ => none
    Describe := fun _ _ _ =>
      .ok ([], { StatusCode := 302, Header := [("Location", ["http://c/x"])] })
    Announce := fun _ _ _ _ => none
    SetupUDP := fun _ _ _ _ _ _ _ => none
    SetupTCP := fun _ _ _ _ _ => none
    Play := fun _ _ _ => none
    Record := fun _ _ _ => none }

/-- A dialer with every setting filled in. -/
def sampleDialer : Dialer :=
  { ReadTimeout := 10000000000, WriteTimeout := 5000000000, ReadBufferCount := 2,
    DialTimeout := some 1, ListenPacket := some 2 }

/-- A server that accepts everything up to DESCRIBE, describes two tracks, and then rejects
every SETUP. -/
def setupRejectingWorld : World :=
  { ParseURL := parseAB
    NewConnClient := fun _ _ => none
    Options := fun _ _ _ => none
    Describe := fun _ _ _ => .ok (sampleTracks, { StatusCode := 200, Header := [] })
    Announce := fun _ _ _ _ => none
    SetupUDP := fun _ _ _ _ _ _ _ => some "461 Unsupported Transport"
    SetupTCP := fun _ _ _ _ _ => some "461 Unsupported Transport"
    Play := fun _ _ _ => none
    Record := fun _ _ _ => none }

/-! ## Vocabulary for statements about traces -/

/-- The SETUP call that the dial helpers issue for one track: over UDP with ports `0, 0` when
`proto` is `StreamProtocolUDP`, over TCP otherwise. -/
def setupCall (proto : StreamProtocol) (conn : ConnClient) (u : URL) (mode : TransportMode)
    (track : Track) : Call :=
  if proto = StreamProtocolUDP then Call.SetupUDP conn u mode track 0 0
  else Call.SetupTCP conn u mode track

/-- The answer of the world to the SETUP of one track at trace `h`. -/
def setupAnswer (w : World) (proto : StreamProtocol) (conn : ConnClient) (u : URL)
    (mode : TransportMode) (track : Track) (h : List Call) : Option Error :=
  if proto = StreamProtocolUDP then w.SetupUDP h conn u mode track 0 0
  else w.SetupTCP h conn u mode track

/-- Every SETUP of the loop over `tracks`, issued one after the other from trace `h`, is
accepted. -/
def SetupsAccepted (w : World) (proto : StreamProtocol) (conn : ConnClient) (u : URL)
    (mode : TransportMode) : Tracks → List Call → Prop
  | [], _ => True
  | track :: rest, h =>
    setupAnswer w proto conn u mode track h = none ∧
      SetupsAccepted w proto conn u mode rest (h ++ [setupCall proto conn u mode track])

/-- At trace `h`, `address` parses to `u`, the connection is created, OPTIONS succeeds and
DESCRIBE succeeds with `tracks` and the response `res`. -/
structure Described (w : World) (d : Dialer) (address : String) (h : List Call) (u : URL)
    (tracks : Tracks) (res : Response) : Prop where
  parse : w.ParseURL address = .ok u
  newConn : w.NewConnClient h (d.conf u) = none
  options : w.Options (h ++ [Call.NewConnClient (d.conf u)]) h.length u = none
  describe : w.Describe (h ++ [Call.NewConnClient (d.conf u), Call.Options h.length u])
    h.length u = .ok (tracks, res)

/-- The response is one that `DialRead` takes for a redirect (the test of lines 79-80). -/
def Response.isRedirect (res : Response) : Prop :=
  StatusMovedPermanently ≤ res.StatusCode ∧ res.StatusCode ≤ StatusUseProxy

instance Response.decIsRedirect (res : Response) : Decidable res.isRedirect :=
  inferInstanceAs (Decidable (_ ∧ _))

/-- Every step of a `DialRead` started at trace `h` succeeds, and the DESCRIBE response is
not taken for a redirect. -/
structure ReadAccepted (w : World) (d : Dialer) (address : String) (proto : StreamProtocol)
    (h : List Call) (u : URL) (tracks : Tracks) (res : Response) : Prop where
  described : Described w d address h u tracks res
  notRedirect : ¬ res.isRedirect
  setups : SetupsAccepted w proto h.length u TransportModePlay tracks
    (h ++ [Call.NewConnClient (d.conf u), Call.Options h.length u, Call.Describe h.length u])
  play : w.Play (h ++ [Call.NewConnClient (d.conf u), Call.Options h.length u,
      Call.Describe h.length u] ++ tracks.map (setupCall proto h.length u TransportModePlay))
    h.length u = none

/-- Every step of a `DialPublish` started at trace `h` succeeds. -/
structure PublishAccepted (w : World) (d : Dialer) (address : String) (proto : StreamProtocol)
    (tracks : Tracks) (h : List Call) (u : URL) : Prop where
  parse : w.ParseURL address = .ok u
  newConn : w.NewConnClient h (d.conf u) = none
  options : w.Options (h ++ [Call.NewConnClient (d.conf u)]) h.length u = none
  announce : w.Announce (h ++ [Call.NewConnClient (d.conf u), Call.Options h.length u])
    h.length u tracks = none
  setups : SetupsAccepted w proto h.length u TransportModeRecord tracks
    (h ++ [Call.NewConnClient (d.conf u), Call.Options h.length u,
      Call.Announce h.length u tracks])
  record : w.Record (h ++ [Call.NewConnClient (d.conf u), Call.Options h.length u,
      Call.Announce h.length u tracks] ++
      tracks.map (setupCall proto h.length u TransportModeRecord))
    h.length u = none

/-- The call that opens the SETUP and PLAY phase of `DialRead`: the SETUP of the first track,
or PLAY when there is no track. -/
def firstSetupOrPlay (proto : StreamProtocol) (conn : ConnClient) (u : URL) : Tracks → Call
  | [] => Call.Play conn u
  | t :: _ => setupCall proto conn u TransportModePlay t

/-- The connection a call is made on, if any. -/
def Call.conn? : Call → Option ConnClient
  | Call.NewConnClient _ => none
  | Call.Options c _ => some c
  | Call.Describe c _ => some c
  | Call.Announce c _ _ => some c
  | Call.SetupUDP c _ _ _ _ _ => some c
  | Call.SetupTCP c _ _ _ => some c
  | Call.Play c _ => some c
  | Call.Record c _ => some c
  | Call.Close c => some c

/-- A SETUP call agrees with the stream protocol and the transport mode of the dial: UDP
exactly when `proto` is `StreamProtocolUDP`, and transport mode `mode`. Calls that are not a
SETUP agree trivially. -/
def Call.setupAgrees (proto : StreamProtocol) (mode : TransportMode) : Call → Prop
  | Call.SetupUDP _ _ m _ _ _ => proto = StreamProtocolUDP ∧ m = mode
  | Call.SetupTCP _ _ m _ => proto ≠ StreamProtocolUDP ∧ m = mode
  | _ => True

/-- What every call added by one dial satisfies: it is made on connection `conn` and, if it
is a SETUP, agrees with `proto` and `mode`. -/
def Call.onConn (conn : ConnClient) (proto : StreamProtocol) (mode : TransportMode)
    (call : Call) : Prop :=
  call.conn? = some conn ∧ call.setupAgrees proto mode

/-- Number of `NewConnClient` calls in a trace. -/
def dialCount (h : List Call) : Nat :=
  (h.filter fun c => match c with | Call.NewConnClient _ => true | _ => false).length

/-! ## The session state table (spec section 4.2) -/

/-- The protocol phases of a session. -/
inductive Phase where
  | Initial | PreSetup | PrePlay | PreRecord | Play | Record | Closed
  deriving DecidableEq, Repr

/-- The RTSP methods. -/
inductive Method where
  | OPTIONS | DESCRIBE | ANNOUNCE | SETUP | PLAY | RECORD | PAUSE | TEARDOWN
  | GET_PARAMETER | SET_PARAMETER
  deriving DecidableEq, Repr

/-- Modelled from the spec: the table "States and legal outbound methods" of section 4.2;
the session state machine lives in the connection layer, outside the embedded sources. -/
def Phase.allows : Phase → Method → Bool
  | Phase.Initial, Method.OPTIONS => true
  | Phase.Initial, Method.DESCRIBE => true
  | Phase.Initial, Method.ANNOUNCE => true
  | Phase.PreSetup, Method.OPTIONS => true
  | Phase.PreSetup, Method.SETUP => true
  | Phase.PrePlay, Method.OPTIONS => true
  | Phase.PrePlay, Method.SETUP => true
  | Phase.PrePlay, Method.PLAY => true
  | Phase.PrePlay, Method.TEARDOWN => true
  | Phase.PreRecord, Method.OPTIONS => true
  | Phase.PreRecord, Method.SETUP => true
  | Phase.PreRecord, Method.RECORD => true
  | Phase.PreRecord, Method.TEARDOWN => true
  | Phase.Play, Method.OPTIONS => true
  | Phase.Play, Method.PAUSE => true
  | Phase.Play, Method.GET_PARAMETER => true
  | Phase.Play, Method.TEARDOWN => true
  | Phase.Record, Method.OPTIONS => true
  | Phase.Record, Method.PAUSE => true
  | Phase.Record, Method.GET_PARAMETER => true
  | Phase.Record, Method.TEARDOWN => true
  | _, _ => false

/-- Modelled from the spec: the "Transitions" list of section 4.2, for a successful request;
the session state machine lives in the connection layer, outside the embedded sources.
Methods for which the list names no transition leave the phase as it is. -/
def Phase.after : Phase → Method → Phase
  | _, Method.DESCRIBE => Phase.PrePlay
  | _, Method.ANNOUNCE => Phase.PreRecord
  | Phase.Initial, Method.SETUP => Phase.PrePlay
  | Phase.PrePlay, Method.SETUP => Phase.PrePlay
  | Phase.PreRecord, Method.SETUP => Phase.PreRecord
  | _, Method.PLAY => Phase.Play
  | _, Method.RECORD => Phase.Record
  | Phase.Play, Method.PAUSE => Phase.PrePlay
  | Phase.Record, Method.PAUSE => Phase.PreRecord
  | _, Method.TEARDOWN => Phase.Closed
  | p, _ => p

/-- Modelled from the spec: one successful request against the state table of section 4.2;
`none` is a `StateViolation`. -/
def Phase.step (p : Phase) (m : Method) : Option Phase :=
  if p.allows m then some (p.after m) else none

/-- Modelled from the spec: a sequence of successful requests, accepted step by step by the
state table of section 4.2. -/
def Phase.run : Phase → List Method → Option Phase
  | p, [] => some p
  | p, m :: ms =>
    match p.step m with
    | none => none
    | some q => q.run ms

/-- The RTSP method a call of the dialer sends, if any (`NewConnClient` and `Close` are not
requests of the session). -/
def Call.method? : Call → Option Method
  | Call.NewConnClient _ => none
  | Call.Options _ _ => some Method.OPTIONS
  | Call.Describe _ _ => some Method.DESCRIBE
  | Call.Announce _ _ _ => some Method.ANNOUNCE
  | Call.SetupUDP _ _ _ _ _ _ => some Method.SETUP
  | Call.SetupTCP _ _ _ _ => some Method.SETUP
  | Call.Play _ _ => some Method.PLAY
  | Call.Record _ _ => some Method.RECORD
  | Call.Close _ => none

/-! ## Lemmas on the SETUP loops -/

theorem setupUDPLoop_trace (w : World) (conn : ConnClient) (u : URL) (mode : TransportMode) :
    ∀ (tracks : Tracks) (h : List Call), ∃ rest,
      (setupUDPLoop w conn u mode tracks h).2 = h ++ rest ∧
        ∀ call ∈ rest, ∃ t, call = Call.SetupUDP conn u mode t 0 0 := by
  intro tracks
  induction tracks with
  | nil => intro h; exact ⟨[], by simp [setupUDPLoop]⟩
  | cons t ts ih =>
    intro h
    cases hw : w.SetupUDP h conn u mode t 0 0 with
    | some err =>
      refine ⟨[Call.SetupUDP conn u mode t 0 0], by simp [setupUDPLoop, hw], ?_⟩
      intro call hc
      exact ⟨t, by simpa using hc⟩
    | none =>
      obtain ⟨rest, hr, hall⟩ := ih (h ++ [Call.SetupUDP conn u mode t 0 0])
      refine ⟨Call.SetupUDP conn u mode t 0 0 :: rest, by simp [setupUDPLoop, hw, hr], ?_⟩
      intro call hc
      rcases List.mem_cons.mp hc with h1 | h1
      · exact ⟨t, h1⟩
      · exact hall call h1

theorem setupTCPLoop_trace (w : World) (conn : ConnClient) (u : URL) (mode : TransportMode) :
    ∀ (tracks : Tracks) (h : List Call), ∃ rest,
      (setupTCPLoop w conn u mode tracks h).2 = h ++ rest ∧
        ∀ call ∈ rest, ∃ t, call = Call.SetupTCP conn u mode t := by
  intro tracks
  induction tracks with
  | nil => intro h; exact ⟨[], by simp [setupTCPLoop]⟩
  | cons t ts ih =>
    intro h
    cases hw : w.SetupTCP h conn u mode t with
    | some err =>
      refine ⟨[Call.SetupTCP conn u mode t], by simp [setupTCPLoop, hw], ?_⟩
      intro call hc
      exact ⟨t, by simpa using hc⟩
    | none =>
      obtain ⟨rest, hr, hall⟩ := ih (h ++ [Call.SetupTCP conn u mode t])
      refine ⟨Call.SetupTCP conn u mode t :: rest, by simp [setupTCPLoop, hw, hr], ?_⟩
      intro call hc
      rcases List.mem_cons.mp hc with h1 | h1
      · exact ⟨t, h1⟩
      · exact hall call h1

theorem setupUDPLoop_accepted (w : World) (conn : ConnClient) (u : URL) (mode : TransportMode) :
    ∀ (tracks : Tracks) (h : List Call),
      SetupsAccepted w StreamProtocolUDP conn u mode tracks h →
        setupUDPLoop w conn u mode tracks h =
          (none, h ++ tracks.map (setupCall StreamProtocolUDP conn u mode)) := by
  intro tracks
  induction tracks with
  | nil => intro h _; simp [setupUDPLoop]
  | cons t ts ih =>
    intro h hacc
    obtain ⟨h1, h2⟩ := hacc
    simp only [setupAnswer, if_true] at h1
    simp only [setupCall, if_true] at h2
    rw [setupUDPLoop, h1]
    simp only
    rw [ih _ h2]
    simp [setupCall]

theorem setupTCPLoop_accepted (w : World) (conn : ConnClient) (u : URL) (mode : TransportMode)
    (proto : StreamProtocol) (hp : proto ≠ StreamProtocolUDP) :
    ∀ (tracks : Tracks) (h : List Call),
      SetupsAccepted w proto conn u mode tracks h →
        setupTCPLoop w conn u mode tracks h =
          (none, h ++ tracks.map (setupCall proto conn u mode)) := by
  intro tracks
  induction tracks with
  | nil => intro h _; simp [setupTCPLoop]
  | cons t ts ih =>
    intro h hacc
    obtain ⟨h1, h2⟩ := hacc
    simp only [setupAnswer, if_neg hp] at h1
    simp only [setupCall, if_neg hp] at h2
    rw [setupTCPLoop, h1]
    simp only
    rw [ih _ h2]
    simp [setupCall, hp]

/-! ## Lemmas on the traces of the dial helpers -/

theorem onConn_setupUDP (conn : ConnClient) (u : URL) (mode : TransportMode) (t : Track) :
    (Call.SetupUDP conn u mode t 0 0).onConn conn StreamProtocolUDP mode := by
  simp [Call.onConn, Call.conn?, Call.setupAgrees]

theorem onConn_setupTCP (conn : ConnClient) (u : URL) (mode : TransportMode) (t : Track)
    (proto : StreamProtocol) (hp : proto ≠ StreamProtocolUDP) :
    (Call.SetupTCP conn u mode t).onConn conn proto mode := by
  simp [Call.onConn, Call.conn?, Call.setupAgrees, hp]

theorem playStep_trace (w : World) (conn : ConnClient) (u : URL) (proto : StreamProtocol)
    (mode : TransportMode) (h : List Call) :
    ∃ rest, (playStep w conn u h).2 = h ++ rest ∧ ∀ call ∈ rest, call.onConn conn proto mode := by
  unfold playStep
  cases w.Play h conn u with
  | some err =>
    exact ⟨[Call.Play conn u, Call.Close conn], rfl, by
      simp [Call.onConn, Call.conn?, Call.setupAgrees]⟩
  | none =>
    exact ⟨[Call.Play conn u], rfl, by simp [Call.onConn, Call.conn?, Call.setupAgrees]⟩

theorem recordStep_trace (w : World) (conn : ConnClient) (u : URL) (proto : StreamProtocol)
    (mode : TransportMode) (h : List Call) :
    ∃ rest, (recordStep w conn u h).2 = h ++ rest ∧
      ∀ call ∈ rest, call.onConn conn proto mode := by
  unfold recordStep
  cases w.Record h conn u with
  | some err =>
    exact ⟨[Call.Record conn u, Call.Close conn], rfl, by
      simp [Call.onConn, Call.conn?, Call.setupAgrees]⟩
  | none =>
    exact ⟨[Call.Record conn u], rfl, by simp [Call.onConn, Call.conn?, Call.setupAgrees]⟩

theorem readSetupPlay_trace (w : World) (conn : ConnClient) (u : URL) (proto : StreamProtocol)
    (tracks : Tracks) (h : List Call) :
    ∃ rest, (readSetupPlay w conn u proto tracks h).2 = h ++ rest ∧
      ∀ call ∈ rest, call.onConn conn proto TransportModePlay := by
  unfold readSetupPlay
  by_cases hp : proto = StreamProtocolUDP
  · subst hp
    simp only [if_true]
    obtain ⟨rest, hr, hall⟩ := setupUDPLoop_trace w conn u TransportModePlay tracks h
    rcases hl : setupUDPLoop w conn u TransportModePlay tracks h with ⟨r, h1⟩
    rw [hl] at hr
    simp only at hr
    subst hr
    have hall2 : ∀ call ∈ rest, call.onConn conn StreamProtocolUDP TransportModePlay := by
      intro call hc
      obtain ⟨t, ht⟩ := hall call hc
      rw [ht]
      exact onConn_setupUDP conn u _ t
    cases r with
    | some err => exact ⟨rest, rfl, hall2⟩
    | none =>
      obtain ⟨rest2, hr2, hall3⟩ :=
        playStep_trace w conn u StreamProtocolUDP TransportModePlay (h ++ rest)
      refine ⟨rest ++ rest2, by simp [hr2], ?_⟩
      intro call hc
      rcases List.mem_append.mp hc with h1 | h1
      · exact hall2 call h1
      · exact hall3 call h1
  · simp only [if_neg hp]
    obtain ⟨rest, hr, hall⟩ := setupTCPLoop_trace w conn u TransportModePlay tracks h
    rcases hl : setupTCPLoop w conn u TransportModePlay tracks h with ⟨r, h1⟩
    rw [hl] at hr
    simp only at hr
    subst hr
    have hall2 : ∀ call ∈ rest, call.onConn conn proto TransportModePlay := by
      intro call hc
      obtain ⟨t, ht⟩ := hall call hc
      rw [ht]
      exact onConn_setupTCP conn u _ t proto hp
    cases r with
    | some err =>
      refine ⟨rest ++ [Call.Close conn], by simp, ?_⟩
      intro call hc
      rcases List.mem_append.mp hc with h1 | h1
      · exact hall2 call h1
      · simp only [List.mem_singleton] at h1
        subst h1
        simp [Call.onConn, Call.conn?, Call.setupAgrees]
    | none =>
      obtain ⟨rest2, hr2, hall3⟩ :=
        playStep_trace w conn u proto TransportModePlay (h ++ rest)
      refine ⟨rest ++ rest2, by simp [hr2], ?_⟩
      intro call hc
      rcases List.mem_append.mp hc with h1 | h1
      · exact hall2 call h1
      · exact hall3 call h1

theorem publishSetupRecord_trace (w : World) (conn : ConnClient) (u : URL)
    (proto : StreamProtocol) (tracks : Tracks) (h : List Call) :
    ∃ rest, (publishSetupRecord w conn u proto tracks h).2 = h ++ rest ∧
      ∀ call ∈ rest, call.onConn conn proto TransportModeRecord := by
  unfold publishSetupRecord
  by_cases hp : proto = StreamProtocolUDP
  · subst hp
    simp only [if_true]
    obtain ⟨rest, hr, hall⟩ := setupUDPLoop_trace w conn u TransportModeRecord tracks h
    rcases hl : setupUDPLoop w conn u TransportModeRecord tracks h with ⟨r, h1⟩
    rw [hl] at hr
    simp only at hr
    subst hr
    have hall2 : ∀ call ∈ rest, call.onConn conn StreamProtocolUDP TransportModeRecord := by
      intro call hc
      obtain ⟨t, ht⟩ := hall call hc
      rw [ht]
      exact onConn_setupUDP conn u _ t
    cases r with
    | some err =>
      refine ⟨rest ++ [Call.Close conn], by simp, ?_⟩
      intro call hc
      rcases List.mem_append.mp hc with h1 | h1
      · exact hall2 call h1
      · simp only [List.mem_singleton] at h1
        subst h1
        simp [Call.onConn, Call.conn?, Call.setupAgrees]
    | none =>
      obtain ⟨rest2, hr2, hall3⟩ :=
        recordStep_trace w conn u StreamProtocolUDP TransportModeRecord (h ++ rest)
      refine ⟨rest ++ rest2, by simp [hr2], ?_⟩
      intro call hc
      rcases List.mem_append.mp hc with h1 | h1
      · exact hall2 call h1
      · exact hall3 call h1
  · simp only [if_neg hp]
    obtain ⟨rest, hr, hall⟩ := setupTCPLoop_trace w conn u TransportModeRecord tracks h
    rcases hl : setupTCPLoop w conn u TransportModeRecord tracks h with ⟨r, h1⟩
    rw [hl] at hr
    simp only at hr
    subst hr
    have hall2 : ∀ call ∈ rest, call.onConn conn proto TransportModeRecord := by
      intro call hc
      obtain ⟨t, ht⟩ := hall call hc
      rw [ht]
      exact onConn_setupTCP conn u _ t proto hp
    cases r with
    | some err =>
      refine ⟨rest ++ [Call.Close conn], by simp, ?_⟩
      intro call hc
      rcases List.mem_append.mp hc with h1 | h1
      · exact hall2 call h1
      · simp only [List.mem_singleton] at h1
        subst h1
        simp [Call.onConn, Call.conn?, Call.setupAgrees]
    | none =>
      obtain ⟨rest2, hr2, hall3⟩ :=
        recordStep_trace w conn u proto TransportModeRecord (h ++ rest)
      refine ⟨rest ++ rest2, by simp [hr2], ?_⟩
      intro call hc
      rcases List.mem_append.mp hc with h1 | h1
      · exact hall2 call h1
      · exact hall3 call h1

/-- What every call added by a dial, redirects included, satisfies: its connection was
allocated at or after position `n` of the trace, and a SETUP agrees with `proto` and `mode`. -/
theorem DialRead_trace (w : World) (d : Dialer) (proto : StreamProtocol) :
    ∀ (fuel : Nat) (address : String) (h : List Call), ∃ rest,
      (DialRead w d fuel address proto h).2 = h ++ rest ∧
        ∀ call ∈ rest, call.setupAgrees proto TransportModePlay ∧
          ∀ c, call.conn? = some c → h.length ≤ c := by
  intro fuel
  induction fuel with
  | zero => intro address h; exact ⟨[], by simp [DialRead]⟩
  | succ fuel ih =>
    intro address h
    rw [DialRead]
    cases w.ParseURL address with
    | error err => exact ⟨[], by simp⟩
    | ok u =>
      simp only
      cases w.NewConnClient h (d.conf u) with
      | some err =>
        exact ⟨[Call.NewConnClient (d.conf u)], rfl, by simp [Call.setupAgrees, Call.conn?]⟩
      | none =>
        simp only
        cases w.Options (h ++ [Call.NewConnClient (d.conf u)]) h.length u with
        | some err =>
          exact ⟨[Call.NewConnClient (d.conf u), Call.Options h.length u, Call.Close h.length],
            by simp, by simp [Call.setupAgrees, Call.conn?]⟩
        | none =>
          simp only
          cases w.Describe (h ++ [Call.NewConnClient (d.conf u)] ++ [Call.Options h.length u])
              h.length u with
          | error err =>
            exact ⟨[Call.NewConnClient (d.conf u), Call.Options h.length u,
              Call.Describe h.length u, Call.Close h.length],
              by simp, by simp [Call.setupAgrees, Call.conn?]⟩
          | ok tr =>
            obtain ⟨tracks, res⟩ := tr
            simp only
            split
            · split
              · exact ⟨[Call.NewConnClient (d.conf u), Call.Options h.length u,
                  Call.Describe h.length u, Call.Close h.length],
                  by simp, by simp [Call.setupAgrees, Call.conn?]⟩
              · rename_i location more _
                obtain ⟨rest, hr, hall⟩ := ih location
                  (h ++ [Call.NewConnClient (d.conf u)] ++ [Call.Options h.length u] ++
                    [Call.Describe h.length u] ++ [Call.Close h.length])
                refine ⟨[Call.NewConnClient (d.conf u), Call.Options h.length u,
                  Call.Describe h.length u, Call.Close h.length] ++ rest, by simpa using hr, ?_⟩
                intro call hc
                rcases List.mem_append.mp hc with h1 | h1
                · simp only [List.mem_cons, List.mem_singleton, List.not_mem_nil, or_false] at h1
                  rcases h1 with rfl | rfl | rfl | rfl <;> simp [Call.setupAgrees, Call.conn?]
                · obtain ⟨ha, hb⟩ := hall call h1
                  refine ⟨ha, fun c hcc => ?_⟩
                  have := hb c hcc
                  simp only [List.length_append, List.length_singleton] at this
                  omega
            · obtain ⟨rest, hr, hall⟩ := readSetupPlay_trace w h.length u proto tracks
                (h ++ [Call.NewConnClient (d.conf u)] ++ [Call.Options h.length u] ++
                  [Call.Describe h.length u])
              refine ⟨[Call.NewConnClient (d.conf u), Call.Options h.length u,
                Call.Describe h.length u] ++ rest, by simpa using hr, ?_⟩
              intro call hc
              rcases List.mem_append.mp hc with h1 | h1
              · simp only [List.mem_cons, List.mem_singleton, List.not_mem_nil, or_false] at h1
                rcases h1 with rfl | rfl | rfl <;> simp [Call.setupAgrees, Call.conn?]
              · obtain ⟨ha, hb⟩ := hall call h1
                refine ⟨hb, fun c hcc => ?_⟩
                exact le_of_eq (Option.some.inj (ha.symm.trans hcc))

theorem DialPublish_trace (w : World) (d : Dialer) (address : String) (proto : StreamProtocol)
    (tracks : Tracks) (h : List Call) :
    ∃ rest, (DialPublish w d address proto tracks h).2 = h ++ rest ∧
      ∀ call ∈ rest, call.setupAgrees proto TransportModeRecord ∧
        ∀ c, call.conn? = some c → c = h.length := by
  rw [DialPublish]
  cases w.ParseURL address with
  | error err => exact ⟨[], by simp⟩
  | ok u =>
    simp only
    cases w.NewConnClient h (d.conf u) with
    | some err =>
      exact ⟨[Call.NewConnClient (d.conf u)], rfl, by simp [Call.setupAgrees, Call.conn?]⟩
    | none =>
      simp only
      cases w.Options (h ++ [Call.NewConnClient (d.conf u)]) h.length u with
      | some err =>
        exact ⟨[Call.NewConnClient (d.conf u), Call.Options h.length u, Call.Close h.length],
          by simp, by simp [Call.setupAgrees, Call.conn?]⟩
      | none =>
        simp only
        cases w.Announce (h ++ [Call.NewConnClient (d.conf u)] ++ [Call.Options h.length u])
            h.length u tracks with
        | some err =>
          exact ⟨[Call.NewConnClient (d.conf u), Call.Options h.length u,
            Call.Announce h.length u tracks, Call.Close h.length],
            by simp, by simp [Call.setupAgrees, Call.conn?]⟩
        | none =>
          simp only
          obtain ⟨rest, hr, hall⟩ := publishSetupRecord_trace w h.length u proto tracks
            (h ++ [Call.NewConnClient (d.conf u)] ++ [Call.Options h.length u] ++
              [Call.Announce h.length u tracks])
          refine ⟨[Call.NewConnClient (d.conf u), Call.Options h.length u,
            Call.Announce h.length u tracks] ++ rest, by simpa using hr, ?_⟩
          intro call hc
          rcases List.mem_append.mp hc with h1 | h1
          · simp only [List.mem_cons, List.mem_singleton, List.not_mem_nil, or_false] at h1
            rcases h1 with rfl | rfl | rfl <;> simp [Call.setupAgrees, Call.conn?]
          · obtain ⟨ha, hb⟩ := hall call h1
            refine ⟨hb, fun c hcc => ?_⟩
            exact (Option.some.inj (ha.symm.trans hcc)).symm

/-! ## Unfolding the dial helpers along a given run -/

theorem DialRead_of_described {w : World} {d : Dialer} {address : String} {h : List Call}
    {u : URL} {tracks : Tracks} {res : Response} (hd : Described w d address h u tracks res)
    (proto : StreamProtocol) (fuel : Nat) :
    DialRead w d (fuel + 1) address proto h =
      if res.isRedirect then
        match res.Header.get "Location" with
        | [] => (Result.panic, h ++ [Call.NewConnClient (d.conf u), Call.Options h.length u,
            Call.Describe h.length u, Call.Close h.length])
        | location :: _ => DialRead w d fuel location proto
            (h ++ [Call.NewConnClient (d.conf u), Call.Options h.length u,
              Call.Describe h.length u, Call.Close h.length])
      else
        readSetupPlay w h.length u proto tracks
          (h ++ [Call.NewConnClient (d.conf u), Call.Options h.length u,
            Call.Describe h.length u]) := by
  have h4 := hd.describe
  rw [DialRead, hd.parse]
  simp only [hd.newConn, hd.options]
  rw [show h ++ [Call.NewConnClient (d.conf u)] ++ [Call.Options h.length u] =
    h ++ [Call.NewConnClient (d.conf u), Call.Options h.length u] by simp, h4]
  simp only [ge_iff_le, List.append_assoc, List.singleton_append,
    List.cons_append, List.nil_append]
  rfl

theorem readSetupPlay_accepted (w : World) (conn : ConnClient) (u : URL)
    (proto : StreamProtocol) (tracks : Tracks) (h : List Call)
    (hs : SetupsAccepted w proto conn u TransportModePlay tracks h)
    (hplay : w.Play (h ++ tracks.map (setupCall proto conn u TransportModePlay)) conn u = none) :
    readSetupPlay w conn u proto tracks h =
      (Result.conn conn,
        h ++ tracks.map (setupCall proto conn u TransportModePlay) ++ [Call.Play conn u]) := by
  unfold readSetupPlay
  by_cases hp : proto = StreamProtocolUDP
  · subst hp
    simp only [if_true]
    rw [setupUDPLoop_accepted w conn u _ tracks h hs]
    simp only [playStep, hplay]
  · simp only [if_neg hp]
    rw [setupTCPLoop_accepted w conn u _ proto hp tracks h hs]
    simp only [playStep, hplay]

theorem publishSetupRecord_accepted (w : World) (conn : ConnClient) (u : URL)
    (proto : StreamProtocol) (tracks : Tracks) (h : List Call)
    (hs : SetupsAccepted w proto conn u TransportModeRecord tracks h)
    (hrec : w.Record (h ++ tracks.map (setupCall proto conn u TransportModeRecord)) conn u
      = none) :
    publishSetupRecord w conn u proto tracks h =
      (Result.conn conn,
        h ++ tracks.map (setupCall proto conn u TransportModeRecord) ++
          [Call.Record conn u]) := by
  unfold publishSetupRecord
  by_cases hp : proto = StreamProtocolUDP
  · subst hp
    simp only [if_true]
    rw [setupUDPLoop_accepted w conn u _ tracks h hs]
    simp only [recordStep, hrec]
  · simp only [if_neg hp]
    rw [setupTCPLoop_accepted w conn u _ proto hp tracks h hs]
    simp only [recordStep, hrec]

theorem DialRead_accepted {w : World} {d : Dialer} {address : String} {proto : StreamProtocol}
    {h : List Call} {u : URL} {tracks : Tracks} {res : Response}
    (ha : ReadAccepted w d address proto h u tracks res) (fuel : Nat) :
    DialRead w d (fuel + 1) address proto h =
      (Result.conn h.length,
        h ++ [Call.NewConnClient (d.conf u), Call.Options h.length u,
          Call.Describe h.length u] ++
          tracks.map (setupCall proto h.length u TransportModePlay) ++
          [Call.Play h.length u]) := by
  rw [DialRead_of_described ha.described proto fuel, if_neg ha.notRedirect]
  exact readSetupPlay_accepted w h.length u proto tracks _ ha.setups ha.play

theorem DialPublish_accepted {w : World} {d : Dialer} {address : String}
    {proto : StreamProtocol} {tracks : Tracks} {h : List Call} {u : URL}
    (ha : PublishAccepted w d address proto tracks h u) :
    DialPublish w d address proto tracks h =
      (Result.conn h.length,
        h ++ [Call.NewConnClient (d.conf u), Call.Options h.length u,
          Call.Announce h.length u tracks] ++
          tracks.map (setupCall proto h.length u TransportModeRecord) ++
          [Call.Record h.length u]) := by
  have h4 := ha.announce
  rw [DialPublish, ha.parse]
  simp only [ha.newConn, ha.options]
  rw [show h ++ [Call.NewConnClient (d.conf u)] ++ [Call.Options h.length u] =
    h ++ [Call.NewConnClient (d.conf u), Call.Options h.length u] by simp, h4]
  simp only
  rw [show h ++ [Call.NewConnClient (d.conf u), Call.Options h.length u] ++
      [Call.Announce h.length u tracks] =
    h ++ [Call.NewConnClient (d.conf u), Call.Options h.length u,
      Call.Announce h.length u tracks] by simp]
  exact publishSetupRecord_accepted w h.length u proto tracks _ ha.setups ha.record

/-! ## The accepting sample world -/

theorem acceptingWorld_readAccepted (proto : StreamProtocol) :
    ReadAccepted acceptingWorld DefaultDialer "rtsp://a/s" proto [] urlA sampleTracks
      { StatusCode := 200, Header := [] } where
  described := ⟨rfl, rfl, rfl, rfl⟩
  notRedirect := by decide
  setups := by
    by_cases hp : proto = StreamProtocolUDP <;>
      simp [SetupsAccepted, sampleTracks, setupAnswer, hp, acceptingWorld, redirectingWorld]
  play := rfl

theorem acceptingWorld_publishAccepted (proto : StreamProtocol) :
    PublishAccepted acceptingWorld DefaultDialer "rtsp://a/s" proto sampleTracks [] urlA where
  parse := rfl
  newConn := rfl
  options := rfl
  announce := rfl
  setups := by
    by_cases hp : proto = StreamProtocolUDP <;>
      simp [SetupsAccepted, sampleTracks, setupAnswer, hp, acceptingWorld, redirectingWorld]
  record := rfl

/-! ## Method sequences and the state table -/

theorem methods_of_setups (proto : StreamProtocol) (conn : ConnClient) (u : URL)
    (mode : TransportMode) (tracks : Tracks) :
    (tracks.map (setupCall proto conn u mode)).filterMap Call.method? =
      List.replicate tracks.length Method.SETUP := by
  induction tracks with
  | nil => rfl
  | cons t ts ih =>
    have ht : (setupCall proto conn u mode t).method? = some Method.SETUP := by
      unfold setupCall
      split <;> rfl
    simp only [List.map_cons, List.length_cons, List.replicate_succ]
    rw [List.filterMap_cons_some ht, ih]

theorem run_setups_prePlay (n : Nat) (ms : List Method) :
    Phase.run Phase.PrePlay (List.replicate n Method.SETUP ++ ms) =
      Phase.run Phase.PrePlay ms := by
  induction n with
  | zero => rfl
  | succ n ih => simpa [List.replicate_succ, Phase.run, Phase.step, Phase.allows, Phase.after]
      using ih

theorem run_setups_preRecord (n : Nat) (ms : List Method) :
    Phase.run Phase.PreRecord (List.replicate n Method.SETUP ++ ms) =
      Phase.run Phase.PreRecord ms := by
  induction n with
  | zero => rfl
  | succ n ih => simpa [List.replicate_succ, Phase.run, Phase.step, Phase.allows, Phase.after]
      using ih

/-! ## Claims on successful dials -/

/-- C4: when every step succeeds and DESCRIBE is not taken for a redirect, `DialRead` issues,
after OPTIONS and DESCRIBE, exactly one SETUP per described track, in list order, then a single
PLAY, and returns the connection all of them were issued on; `DialPublish` does the same with
ANNOUNCE, the tracks it was given and a single final RECORD. -/
theorem dial_one_setup_per_track (w : World) (d : Dialer) (address : String)
    (proto : StreamProtocol) (tracks : Tracks) (h : List Call) (u : URL) :
    (∀ (res : Response) (fuel : Nat), ReadAccepted w d address proto h u tracks res →
      DialRead w d (fuel + 1) address proto h =
        (Result.conn h.length,
          h ++ [Call.NewConnClient (d.conf u), Call.Options h.length u,
            Call.Describe h.length u] ++
            tracks.map (setupCall proto h.length u TransportModePlay) ++
            [Call.Play h.length u])) ∧
    (PublishAccepted w d address proto tracks h u →
      DialPublish w d address proto tracks h =
        (Result.conn h.length,
          h ++ [Call.NewConnClient (d.conf u), Call.Options h.length u,
            Call.Announce h.length u tracks] ++
            tracks.map (setupCall proto h.length u TransportModeRecord) ++
            [Call.Record h.length u])) :=
  ⟨fun _ fuel ha => DialRead_accepted ha fuel, fun ha => DialPublish_accepted ha⟩

/-- Witness of C4: reading two tracks over UDP from the accepting sample world and publishing
them to it. -/
theorem dial_one_setup_per_track_witness :
    ReadAccepted acceptingWorld DefaultDialer "rtsp://a/s" StreamProtocolUDP [] urlA
        sampleTracks { StatusCode := 200, Header := [] } ∧
      PublishAccepted acceptingWorld DefaultDialer "rtsp://a/s" StreamProtocolUDP
        sampleTracks [] urlA ∧
      DialRead acceptingWorld DefaultDialer 1 "rtsp://a/s" StreamProtocolUDP [] =
        (Result.conn 0,
          [Call.NewConnClient (DefaultDialer.conf urlA), Call.Options 0 urlA,
            Call.Describe 0 urlA,
            Call.SetupUDP 0 urlA TransportModePlay { Id := 0, Media := "video" } 0 0,
            Call.SetupUDP 0 urlA TransportModePlay { Id := 1, Media := "audio" } 0 0,
            Call.Play 0 urlA]) ∧
      DialPublish acceptingWorld DefaultDialer "rtsp://a/s" StreamProtocolUDP sampleTracks [] =
        (Result.conn 0,
          [Call.NewConnClient (DefaultDialer.conf urlA), Call.Options 0 urlA,
            Call.Announce 0 urlA sampleTracks,
            Call.SetupUDP 0 urlA TransportModeRecord { Id := 0, Media := "video" } 0 0,
            Call.SetupUDP 0 urlA TransportModeRecord { Id := 1, Media := "audio" } 0 0,
            Call.Record 0 urlA]) :=
  ⟨acceptingWorld_readAccepted _, acceptingWorld_publishAccepted _,
    (dial_one_setup_per_track acceptingWorld DefaultDialer "rtsp://a/s" StreamProtocolUDP
      sampleTracks [] urlA).1 _ 0 (acceptingWorld_readAccepted _),
    (dial_one_setup_per_track acceptingWorld DefaultDialer "rtsp://a/s" StreamProtocolUDP
      sampleTracks [] urlA).2 (acceptingWorld_publishAccepted _)⟩

/-- C5: the methods that a fully successful `DialRead` issues are OPTIONS, DESCRIBE, one SETUP
per track and PLAY, and those of a fully successful `DialPublish` are OPTIONS, ANNOUNCE, one
SETUP per track and RECORD; for every track list, the empty one included, the state table of
spec section 4.2 accepts them step by step from Initial and ends in Play and in Record. -/
theorem dial_methods_follow_state_table (w : World) (d : Dialer) (address : String)
    (proto : StreamProtocol) (tracks : Tracks) (h : List Call) (u : URL) :
    (∀ (res : Response) (fuel : Nat), ReadAccepted w d address proto h u tracks res →
      ((DialRead w d (fuel + 1) address proto h).2.drop h.length).filterMap Call.method? =
          [Method.OPTIONS, Method.DESCRIBE] ++ List.replicate tracks.length Method.SETUP ++
            [Method.PLAY] ∧
        Phase.run Phase.Initial
            (((DialRead w d (fuel + 1) address proto h).2.drop h.length).filterMap
              Call.method?) = some Phase.Play) ∧
    (PublishAccepted w d address proto tracks h u →
      ((DialPublish w d address proto tracks h).2.drop h.length).filterMap Call.method? =
          [Method.OPTIONS, Method.ANNOUNCE] ++ List.replicate tracks.length Method.SETUP ++
            [Method.RECORD] ∧
        Phase.run Phase.Initial
            (((DialPublish w d address proto tracks h).2.drop h.length).filterMap
              Call.method?) = some Phase.Record) := by
  constructor
  · intro res fuel ha
    have hm : ((DialRead w d (fuel + 1) address proto h).2.drop h.length).filterMap
        Call.method? = [Method.OPTIONS, Method.DESCRIBE] ++
          List.replicate tracks.length Method.SETUP ++ [Method.PLAY] := by
      rw [DialRead_accepted ha fuel]
      simp only [List.append_assoc, List.drop_left, List.filterMap_append, methods_of_setups]
      rfl
    refine ⟨hm, ?_⟩
    rw [hm]
    have h1 : Phase.run Phase.Initial ([Method.OPTIONS, Method.DESCRIBE] ++
        List.replicate tracks.length Method.SETUP ++ [Method.PLAY]) =
        Phase.run Phase.PrePlay (List.replicate tracks.length Method.SETUP ++ [Method.PLAY]) :=
      rfl
    rw [h1, run_setups_prePlay]
    rfl
  · intro ha
    have hm : ((DialPublish w d address proto tracks h).2.drop h.length).filterMap
        Call.method? = [Method.OPTIONS, Method.ANNOUNCE] ++
          List.replicate tracks.length Method.SETUP ++ [Method.RECORD] := by
      rw [DialPublish_accepted ha]
      simp only [List.append_assoc, List.drop_left, List.filterMap_append, methods_of_setups]
      rfl
    refine ⟨hm, ?_⟩
    rw [hm]
    have h1 : Phase.run Phase.Initial ([Method.OPTIONS, Method.ANNOUNCE] ++
        List.replicate tracks.length Method.SETUP ++ [Method.RECORD]) =
        Phase.run Phase.PreRecord
          (List.replicate tracks.length Method.SETUP ++ [Method.RECORD]) :=
      rfl
    rw [h1, run_setups_preRecord]
    rfl

/-- Witness of C5: reading two tracks from the accepting sample world over TCP, and
publishing no track at all to it. -/
theorem dial_methods_follow_state_table_witness :
    ReadAccepted acceptingWorld DefaultDialer "rtsp://a/s" StreamProtocolTCP [] urlA
        sampleTracks { StatusCode := 200, Header := [] } ∧
      PublishAccepted acceptingWorld DefaultDialer "rtsp://a/s" StreamProtocolTCP [] [] urlA ∧
      Phase.run Phase.Initial
        (((DialRead acceptingWorld DefaultDialer 1 "rtsp://a/s" StreamProtocolTCP []).2.drop
          ([] : List Call).length).filterMap Call.method?) = some Phase.Play ∧
      Phase.run Phase.Initial
        (((DialPublish acceptingWorld DefaultDialer "rtsp://a/s" StreamProtocolTCP [] []).2.drop
          ([] : List Call).length).filterMap Call.method?) = some Phase.Record :=
  ⟨acceptingWorld_readAccepted _, ⟨rfl, rfl, rfl, rfl, trivial, rfl⟩,
    ((dial_methods_follow_state_table acceptingWorld DefaultDialer "rtsp://a/s"
      StreamProtocolTCP sampleTracks [] urlA).1 _ 0 (acceptingWorld_readAccepted _)).2,
    ((dial_methods_follow_state_table acceptingWorld DefaultDialer "rtsp://a/s"
      StreamProtocolTCP [] [] urlA).2 ⟨rfl, rfl, rfl, rfl, trivial, rfl⟩).2⟩

/-- C6: no dial mixes transports or transport modes. Every SETUP that `DialRead` issues,
redirects included, is over UDP with mode play when `proto` is `StreamProtocolUDP` and over
TCP with mode play otherwise; every SETUP that `DialPublish` issues is over UDP with mode
record when `proto` is `StreamProtocolUDP` and over TCP with mode record otherwise. -/
theorem dial_setups_never_mixed (w : World) (d : Dialer) (proto : StreamProtocol) :
    (∀ (fuel : Nat) (address : String) (h : List Call), ∃ rest,
      (DialRead w d fuel address proto h).2 = h ++ rest ∧
        (∀ c u m t p q, Call.SetupUDP c u m t p q ∈ rest →
          proto = StreamProtocolUDP ∧ m = TransportModePlay) ∧
        (∀ c u m t, Call.SetupTCP c u m t ∈ rest →
          proto ≠ StreamProtocolUDP ∧ m = TransportModePlay)) ∧
    (∀ (address : String) (tracks : Tracks) (h : List Call), ∃ rest,
      (DialPublish w d address proto tracks h).2 = h ++ rest ∧
        (∀ c u m t p q, Call.SetupUDP c u m t p q ∈ rest →
          proto = StreamProtocolUDP ∧ m = TransportModeRecord) ∧
        (∀ c u m t, Call.SetupTCP c u m t ∈ rest →
          proto ≠ StreamProtocolUDP ∧ m = TransportModeRecord)) := by
  constructor
  · intro fuel address h
    obtain ⟨rest, hr, hall⟩ := DialRead_trace w d proto fuel address h
    exact ⟨rest, hr, fun c u m t p q hc => (hall _ hc).1, fun c u m t hc => (hall _ hc).1⟩
  · intro address tracks h
    obtain ⟨rest, hr, hall⟩ := DialPublish_trace w d address proto tracks h
    exact ⟨rest, hr, fun c u m t p q hc => (hall _ hc).1, fun c u m t hc => (hall _ hc).1⟩

/-- Witness of C6: reading two tracks over TCP from the accepting sample world issues a TCP
SETUP with mode play, and `proto` is not `StreamProtocolUDP`. -/
theorem dial_setups_never_mixed_witness :
    ∃ rest, (DialRead acceptingWorld DefaultDialer 1 "rtsp://a/s" StreamProtocolTCP []).2 =
        [] ++ rest ∧
      Call.SetupTCP 0 urlA TransportModePlay { Id := 1, Media := "audio" } ∈ rest ∧
      StreamProtocolTCP ≠ StreamProtocolUDP ∧ TransportModePlay = TransportModePlay := by
  obtain ⟨rest, hr, -, ht⟩ :=
    (dial_setups_never_mixed acceptingWorld DefaultDialer StreamProtocolTCP).1 1 "rtsp://a/s" []
  have hmem : Call.SetupTCP 0 urlA TransportModePlay { Id := 1, Media := "audio" } ∈ rest := by
    rw [List.nil_append] at hr
    rw [← hr]
    decide
  exact ⟨rest, hr, hmem, ht _ _ _ _ hmem⟩

/-! ## Redirects -/

theorem readSetupPlay_next (w : World) (conn : ConnClient) (u : URL) (proto : StreamProtocol)
    (tracks : Tracks) (h : List Call) :
    ∃ rest, (readSetupPlay w conn u proto tracks h).2 =
      h ++ firstSetupOrPlay proto conn u tracks :: rest := by
  cases tracks with
  | nil =>
    cases hw : w.Play h conn u with
    | some err =>
      exact ⟨[Call.Close conn], by
        by_cases hp : proto = StreamProtocolUDP <;>
          simp [readSetupPlay, hp, setupUDPLoop, setupTCPLoop, playStep, hw, firstSetupOrPlay]⟩
    | none =>
      exact ⟨[], by
        by_cases hp : proto = StreamProtocolUDP <;>
          simp [readSetupPlay, hp, setupUDPLoop, setupTCPLoop, playStep, hw, firstSetupOrPlay]⟩
  | cons t ts =>
    by_cases hp : proto = StreamProtocolUDP
    · cases hw : w.SetupUDP h conn u TransportModePlay t 0 0 with
      | some err =>
        exact ⟨[], by simp [readSetupPlay, hp, setupUDPLoop, hw, setupCall, firstSetupOrPlay]⟩
      | none =>
        obtain ⟨rest, hr, -⟩ := readSetupPlay_trace w conn u proto ts
          (h ++ [Call.SetupUDP conn u TransportModePlay t 0 0])
        refine ⟨rest, ?_⟩
        have he : readSetupPlay w conn u proto (t :: ts) h =
            readSetupPlay w conn u proto ts
              (h ++ [Call.SetupUDP conn u TransportModePlay t 0 0]) := by
          simp [readSetupPlay, hp, setupUDPLoop, hw]
        rw [he, hr]
        simp [setupCall, hp, firstSetupOrPlay]
    · cases hw : w.SetupTCP h conn u TransportModePlay t with
      | some err =>
        exact ⟨[Call.Close conn], by
          simp [readSetupPlay, hp, setupTCPLoop, hw, setupCall, firstSetupOrPlay]⟩
      | none =>
        obtain ⟨rest, hr, -⟩ := readSetupPlay_trace w conn u proto ts
          (h ++ [Call.SetupTCP conn u TransportModePlay t])
        refine ⟨rest, ?_⟩
        have he : readSetupPlay w conn u proto (t :: ts) h =
            readSetupPlay w conn u proto ts
              (h ++ [Call.SetupTCP conn u TransportModePlay t]) := by
          simp [readSetupPlay, hp, setupTCPLoop, hw]
        rw [he, hr]
        simp [setupCall, hp, firstSetupOrPlay]

theorem setupCall_ne_close (proto : StreamProtocol) (conn : ConnClient) (u : URL)
    (mode : TransportMode) (t : Track) (c : ConnClient) :
    setupCall proto conn u mode t ≠ Call.Close c := by
  unfold setupCall
  split <;> simp

/-- The trace of `DialRead` after a DESCRIBE taken for a redirect: the connection is closed
right after DESCRIBE. -/
theorem DialRead_redirect_trace {w : World} {d : Dialer} {address : String} {h : List Call}
    {u : URL} {tracks : Tracks} {res : Response} (hd : Described w d address h u tracks res)
    (hr : res.isRedirect) (proto : StreamProtocol) (fuel : Nat) :
    ∃ rest, (DialRead w d (fuel + 1) address proto h).2 =
      h ++ [Call.NewConnClient (d.conf u), Call.Options h.length u, Call.Describe h.length u,
        Call.Close h.length] ++ rest ∧
      ∀ call ∈ rest, call.conn? ≠ some h.length := by
  rw [DialRead_of_described hd proto fuel, if_pos hr]
  split
  · exact ⟨[], by simp⟩
  · rename_i location more _
    obtain ⟨rest, hrest, hall⟩ := DialRead_trace w d proto fuel location
      (h ++ [Call.NewConnClient (d.conf u), Call.Options h.length u, Call.Describe h.length u,
        Call.Close h.length])
    refine ⟨rest, hrest, ?_⟩
    intro call hc hcc
    have := (hall call hc).2 _ hcc
    simp only [List.length_append, List.length_cons, List.length_nil] at this
    omega

/-- C2, as the code has it: given that DESCRIBE succeeded, `DialRead` closes the connection
right after DESCRIBE if and only if the status code lies between 301 and 305, 304 included.
When such a response carries a `Location` header, `DialRead` then goes on exactly as a new
`DialRead` of the first `Location` value, with the same dialer and protocol; for every other
status code it goes on, on the same connection, with the SETUP of the first track, or with
PLAY when DESCRIBE returned no track. -/
theorem DialRead_redirect_iff_status_in_301_305 {w : World} {d : Dialer} {address : String}
    {h : List Call} {u : URL} {tracks : Tracks} {res : Response}
    (hd : Described w d address h u tracks res) (proto : StreamProtocol) (fuel : Nat) :
    ((∃ rest, (DialRead w d (fuel + 1) address proto h).2 =
        h ++ [Call.NewConnClient (d.conf u), Call.Options h.length u,
          Call.Describe h.length u] ++ Call.Close h.length :: rest) ↔
      (301 ≤ res.StatusCode ∧ res.StatusCode ≤ 305)) ∧
    ((301 ≤ res.StatusCode ∧ res.StatusCode ≤ 305) →
      ∀ (location : String) (more : List String),
        res.Header.get "Location" = location :: more →
          DialRead w d (fuel + 1) address proto h =
            DialRead w d fuel location proto
              (h ++ [Call.NewConnClient (d.conf u), Call.Options h.length u,
                Call.Describe h.length u, Call.Close h.length])) ∧
    (¬ (301 ≤ res.StatusCode ∧ res.StatusCode ≤ 305) →
      DialRead w d (fuel + 1) address proto h =
          readSetupPlay w h.length u proto tracks
            (h ++ [Call.NewConnClient (d.conf u), Call.Options h.length u,
              Call.Describe h.length u]) ∧
        ∃ rest, (DialRead w d (fuel + 1) address proto h).2 =
          h ++ [Call.NewConnClient (d.conf u), Call.Options h.length u,
            Call.Describe h.length u] ++
            firstSetupOrPlay proto h.length u tracks :: rest) := by
  have hyes : res.isRedirect → ∃ rest, (DialRead w d (fuel + 1) address proto h).2 =
      h ++ [Call.NewConnClient (d.conf u), Call.Options h.length u,
        Call.Describe h.length u] ++ Call.Close h.length :: rest := by
    intro hr
    obtain ⟨rest, hrest, -⟩ := DialRead_redirect_trace hd hr proto fuel
    exact ⟨rest, by rw [hrest]; simp⟩
  have hno : ¬ res.isRedirect →
      DialRead w d (fuel + 1) address proto h =
          readSetupPlay w h.length u proto tracks
            (h ++ [Call.NewConnClient (d.conf u), Call.Options h.length u,
              Call.Describe h.length u]) ∧
        ∃ rest, (DialRead w d (fuel + 1) address proto h).2 =
          h ++ [Call.NewConnClient (d.conf u), Call.Options h.length u,
            Call.Describe h.length u] ++
            firstSetupOrPlay proto h.length u tracks :: rest := by
    intro hr
    have he := DialRead_of_described hd proto fuel
    rw [if_neg hr] at he
    refine ⟨he, ?_⟩
    rw [he]
    exact readSetupPlay_next w h.length u proto tracks _
  refine ⟨⟨?_, hyes⟩, ?_, hno⟩
  · rintro ⟨rest, hrest⟩
    by_contra hr
    obtain ⟨-, rest2, hrest2⟩ := hno hr
    rw [hrest] at hrest2
    have hcall := (List.cons.inj (List.append_cancel_left hrest2)).1
    cases tracks with
    | nil => simp [firstSetupOrPlay] at hcall
    | cons t ts => exact setupCall_ne_close _ _ _ _ _ _ hcall.symm
  · intro hr location more hloc
    rw [DialRead_of_described hd proto fuel, if_pos (show res.isRedirect from hr), hloc]

/-- Witness of C2 as the code has it: the sample server answering the first DESCRIBE
with 303 and `Location: rtsp://b/s`. -/
theorem DialRead_redirect_iff_status_in_301_305_witness :
    Described (redirectingWorld 1 303) DefaultDialer "rtsp://a/s" [] urlA []
        { StatusCode := 303, Header := [("Location", ["rtsp://b/s"])] } ∧
      ((∃ rest, (DialRead (redirectingWorld 1 303) DefaultDialer 2 "rtsp://a/s"
          StreamProtocolUDP []).2 =
        [] ++ [Call.NewConnClient (DefaultDialer.conf urlA), Call.Options 0 urlA,
          Call.Describe 0 urlA] ++ Call.Close 0 :: rest) ↔
      ((301 : Int) ≤ 303 ∧ (303 : Int) ≤ 305)) ∧
      DialRead (redirectingWorld 1 303) DefaultDialer 2 "rtsp://a/s" StreamProtocolUDP [] =
        DialRead (redirectingWorld 1 303) DefaultDialer 1 "rtsp://b/s" StreamProtocolUDP
          ([] ++ [Call.NewConnClient (DefaultDialer.conf urlA), Call.Options 0 urlA,
            Call.Describe 0 urlA, Call.Close 0]) :=
  have hd : Described (redirectingWorld 1 303) DefaultDialer "rtsp://a/s" [] urlA []
      { StatusCode := 303, Header := [("Location", ["rtsp://b/s"])] } := ⟨rfl, rfl, rfl, rfl⟩
  ⟨hd, (DialRead_redirect_iff_status_in_301_305 hd StreamProtocolUDP 1).1,
    (DialRead_redirect_iff_status_in_301_305 hd StreamProtocolUDP 1).2.1 (by decide)
      "rtsp://b/s" [] rfl⟩

/-- C2 fails as stated: a DESCRIBE answered with status 304 and a `Location` header is taken
for a redirect. The first connection is closed right after DESCRIBE, no SETUP is issued on it,
and the `Location` URL is dialed. -/
theorem DialRead_status_304_is_redirect :
    (redirectingWorld 1 304).Describe
        [Call.NewConnClient (DefaultDialer.conf urlA), Call.Options 0 urlA] 0 urlA =
      .ok ([], { StatusCode := 304, Header := [("Location", ["rtsp://b/s"])] }) ∧
    DialRead (redirectingWorld 1 304) DefaultDialer 2 "rtsp://a/s" StreamProtocolTCP [] =
      (Result.conn 4,
        [Call.NewConnClient (DefaultDialer.conf urlA), Call.Options 0 urlA,
          Call.Describe 0 urlA, Call.Close 0,
          Call.NewConnClient (DefaultDialer.conf urlB), Call.Options 4 urlB,
          Call.Describe 4 urlB,
          Call.SetupTCP 4 urlB TransportModePlay { Id := 0, Media := "video" },
          Call.SetupTCP 4 urlB TransportModePlay { Id := 1, Media := "audio" },
          Call.Play 4 urlB]) := by
  constructor <;> rfl

/-- Once the address parses and the connection is created, the dial goes on with OPTIONS on
the new connection and, when OPTIONS succeeds, with DESCRIBE. -/
theorem DialRead_opened_trace (w : World) (d : Dialer) (address : String)
    (proto : StreamProtocol) (h : List Call) (u : URL) (fuel : Nat)
    (hp : w.ParseURL address = .ok u) (hn : w.NewConnClient h (d.conf u) = none) :
    ∃ rest, (DialRead w d (fuel + 1) address proto h).2 =
        h ++ Call.NewConnClient (d.conf u) :: Call.Options h.length u :: rest ∧
      (w.Options (h ++ [Call.NewConnClient (d.conf u)]) h.length u = none →
        ∃ rest2, rest = Call.Describe h.length u :: rest2) := by
  cases hopt : w.Options (h ++ [Call.NewConnClient (d.conf u)]) h.length u with
  | some err =>
    refine ⟨[Call.Close h.length], ?_, by simp⟩
    rw [DialRead, hp]
    simp [hn, hopt]
  | none =>
    cases hdesc : w.Describe (h ++ [Call.NewConnClient (d.conf u), Call.Options h.length u])
        h.length u with
    | error err =>
      refine ⟨[Call.Describe h.length u, Call.Close h.length], ?_, by simp⟩
      rw [DialRead, hp]
      simp only [hn, hopt]
      rw [show h ++ [Call.NewConnClient (d.conf u)] ++ [Call.Options h.length u] =
        h ++ [Call.NewConnClient (d.conf u), Call.Options h.length u] by simp, hdesc]
      simp
    | ok tr =>
      obtain ⟨tracks, res⟩ := tr
      have hd : Described w d address h u tracks res := ⟨hp, hn, hopt, hdesc⟩
      by_cases hr : res.isRedirect
      · obtain ⟨rest, hrest, -⟩ := DialRead_redirect_trace hd hr proto fuel
        exact ⟨Call.Describe h.length u :: Call.Close h.length :: rest,
          by rw [hrest]; simp, fun _ => ⟨_, rfl⟩⟩
      · obtain ⟨rest, hrest, -⟩ := readSetupPlay_trace w h.length u proto tracks
          (h ++ [Call.NewConnClient (d.conf u), Call.Options h.length u,
            Call.Describe h.length u])
        refine ⟨Call.Describe h.length u :: rest, ?_, fun _ => ⟨_, rfl⟩⟩
        rw [DialRead_of_described hd proto fuel, if_neg hr, hrest]
        simp

/-- C3, as the code has it: when DESCRIBE is answered with a redirect (status 301 to 305)
carrying a `Location` header, `DialRead` closes the connection right after DESCRIBE and goes
on exactly as a `DialRead` of the first `Location` value with the same dialer and the same
protocol. Nothing further is issued on the first connection (no SETUP, no PLAY), and every
later call comes after the `Close`. When the `Location` value parses to a URL and the new
connection can be created, the next calls are the creation of a connection whose host is the
host of that URL and whose settings are those of the dialer, and OPTIONS against that URL on
the new connection, followed by DESCRIBE against it when OPTIONS succeeds. -/
theorem DialRead_redirect_redials_location {w : World} {d : Dialer} {address : String}
    {h : List Call} {u : URL} {tracks : Tracks} {res : Response} {location : String}
    {more : List String} (hd : Described w d address h u tracks res)
    (hr : 301 ≤ res.StatusCode ∧ res.StatusCode ≤ 305)
    (hloc : res.Header.get "Location" = location :: more)
    (proto : StreamProtocol) (fuel : Nat) :
    DialRead w d (fuel + 2) address proto h =
        DialRead w d (fuel + 1) location proto
          (h ++ [Call.NewConnClient (d.conf u), Call.Options h.length u,
            Call.Describe h.length u, Call.Close h.length]) ∧
      (∃ rest, (DialRead w d (fuel + 2) address proto h).2 =
          h ++ [Call.NewConnClient (d.conf u), Call.Options h.length u,
            Call.Describe h.length u, Call.Close h.length] ++ rest ∧
        ∀ call ∈ rest, call.conn? ≠ some h.length) ∧
      (∀ u2, w.ParseURL location = .ok u2 →
        w.NewConnClient (h ++ [Call.NewConnClient (d.conf u), Call.Options h.length u,
          Call.Describe h.length u, Call.Close h.length])
          { Host := u2.Host, ReadTimeout := d.ReadTimeout, WriteTimeout := d.WriteTimeout,
            ReadBufferCount := d.ReadBufferCount, DialTimeout := d.DialTimeout,
            ListenPacket := d.ListenPacket } = none →
        ∃ rest, (DialRead w d (fuel + 2) address proto h).2 =
            h ++ [Call.NewConnClient (d.conf u), Call.Options h.length u,
              Call.Describe h.length u, Call.Close h.length] ++
              Call.NewConnClient
                { Host := u2.Host, ReadTimeout := d.ReadTimeout,
                  WriteTimeout := d.WriteTimeout, ReadBufferCount := d.ReadBufferCount,
                  DialTimeout := d.DialTimeout, ListenPacket := d.ListenPacket } ::
              Call.Options (h.length + 4) u2 :: rest ∧
          (w.Options (h ++ [Call.NewConnClient (d.conf u), Call.Options h.length u,
              Call.Describe h.length u, Call.Close h.length,
              Call.NewConnClient
                { Host := u2.Host, ReadTimeout := d.ReadTimeout,
                  WriteTimeout := d.WriteTimeout, ReadBufferCount := d.ReadBufferCount,
                  DialTimeout := d.DialTimeout, ListenPacket := d.ListenPacket }])
              (h.length + 4) u2 = none →
            ∃ rest2, rest = Call.Describe (h.length + 4) u2 :: rest2)) := by
  have he : DialRead w d (fuel + 2) address proto h =
      DialRead w d (fuel + 1) location proto
        (h ++ [Call.NewConnClient (d.conf u), Call.Options h.length u,
          Call.Describe h.length u, Call.Close h.length]) := by
    rw [DialRead_of_described hd proto (fuel + 1), if_pos (show res.isRedirect from hr), hloc]
  refine ⟨he, DialRead_redirect_trace hd hr proto (fuel + 1), ?_⟩
  intro u2 hp2 hn2
  have hconf : d.conf u2 =
      { Host := u2.Host, ReadTimeout := d.ReadTimeout, WriteTimeout := d.WriteTimeout,
        ReadBufferCount := d.ReadBufferCount, DialTimeout := d.DialTimeout,
        ListenPacket := d.ListenPacket } := rfl
  rw [← hconf] at hn2 ⊢
  obtain ⟨rest, hrest, hnext⟩ := DialRead_opened_trace w d location proto _ u2 fuel hp2 hn2
  have hlen : (h ++ [Call.NewConnClient (d.conf u), Call.Options h.length u,
      Call.Describe h.length u, Call.Close h.length]).length = h.length + 4 := by simp
  rw [hlen] at hrest hnext
  refine ⟨rest, by rw [he, hrest], ?_⟩
  intro hopt
  apply hnext
  rw [← hopt]
  simp

/-- Witness of C3 as the code has it: the sample server answering the first DESCRIBE with 302
and `Location: rtsp://b/s`, dialed with every setting filled in; the re-dial opens a
connection to host `b` with the same settings and issues OPTIONS and DESCRIBE on it. -/
theorem DialRead_redirect_redials_location_witness :
    Described (redirectingWorld 1 302) sampleDialer "rtsp://a/s" [] urlA []
        { StatusCode := 302, Header := [("Location", ["rtsp://b/s"])] } ∧
      DialRead (redirectingWorld 1 302) sampleDialer 2 "rtsp://a/s" StreamProtocolUDP [] =
        DialRead (redirectingWorld 1 302) sampleDialer 1 "rtsp://b/s" StreamProtocolUDP
          [Call.NewConnClient (sampleDialer.conf urlA), Call.Options 0 urlA,
            Call.Describe 0 urlA, Call.Close 0] ∧
      ∃ rest, (DialRead (redirectingWorld 1 302) sampleDialer 2 "rtsp://a/s"
          StreamProtocolUDP []).2 =
        [Call.NewConnClient
            { Host := "a", ReadTimeout := 10000000000, WriteTimeout := 5000000000,
              ReadBufferCount := 2, DialTimeout := some 1, ListenPacket := some 2 },
          Call.Options 0 urlA, Call.Describe 0 urlA, Call.Close 0,
          Call.NewConnClient
            { Host := "b", ReadTimeout := 10000000000, WriteTimeout := 5000000000,
              ReadBufferCount := 2, DialTimeout := some 1, ListenPacket := some 2 },
          Call.Options 4 urlB, Call.Describe 4 urlB] ++ rest :=
  have hd : Described (redirectingWorld 1 302) sampleDialer "rtsp://a/s" [] urlA []
      { StatusCode := 302, Header := [("Location", ["rtsp://b/s"])] } := ⟨rfl, rfl, rfl, rfl⟩
  ⟨hd, (DialRead_redirect_redials_location hd (by decide) rfl StreamProtocolUDP 0).1, by
    obtain ⟨rest, hrest, hnext⟩ :=
      (DialRead_redirect_redials_location hd (by decide) rfl StreamProtocolUDP 0).2.2
        urlB rfl rfl
    obtain ⟨rest2, hrest2⟩ := hnext rfl
    exact ⟨rest2, by rw [hrest, hrest2]; rfl⟩⟩

/-- C3 fails as stated: a DESCRIBE answered with 302 and `Location: http://c/x`, a value
that does not parse. `DialRead` closes the first connection and returns the parse error; no
second connection is created and no further OPTIONS or DESCRIBE is issued. -/
theorem DialRead_redirect_unparsable_location :
    badLocationWorld.Describe
        [Call.NewConnClient (DefaultDialer.conf urlA), Call.Options 0 urlA] 0 urlA =
      .ok ([], { StatusCode := 302, Header := [("Location", ["http://c/x"])] }) ∧
    DialRead badLocationWorld DefaultDialer 2 "rtsp://a/s" StreamProtocolUDP [] =
      (Result.error "invalid URL",
        [Call.NewConnClient (DefaultDialer.conf urlA), Call.Options 0 urlA,
          Call.Describe 0 urlA, Call.Close 0]) ∧
    dialCount
      (DialRead badLocationWorld DefaultDialer 2 "rtsp://a/s" StreamProtocolUDP []).2 = 1 := by
  refine ⟨?_, ?_, ?_⟩ <;> rfl

/-! ## No limit on redirects -/

theorem describeCount_append (h k : List Call) :
    describeCount (h ++ k) = describeCount h + describeCount k := by
  simp [describeCount, List.filter_append]

theorem dialCount_append (h k : List Call) :
    dialCount (h ++ k) = dialCount h + dialCount k := by
  simp [dialCount, List.filter_append]

theorem dialCount_setups (proto : StreamProtocol) (conn : ConnClient) (u : URL)
    (mode : TransportMode) (tracks : Tracks) :
    dialCount (tracks.map (setupCall proto conn u mode)) = 0 := by
  induction tracks with
  | nil => rfl
  | cons t ts ih =>
    have ht : dialCount [setupCall proto conn u mode t] = 0 := by
      unfold setupCall
      split <;> rfl
    rw [List.map_cons, ← List.singleton_append, dialCount_append, ht, ih]

theorem redirectingWorld_described (n : Nat) (code : StatusCode) (d : Dialer)
    (address : String) (h : List Call) (u : URL) (hu : parseAB address = .ok u)
    (hlt : describeCount h < n) :
    Described (redirectingWorld n code) d address h u []
      { StatusCode := code, Header := [("Location", ["rtsp://b/s"])] } where
  parse := hu
  newConn := rfl
  options := rfl
  describe := by
    have hc : describeCount (h ++ [Call.NewConnClient (d.conf u), Call.Options h.length u]) =
        describeCount h := by
      rw [describeCount_append]
      rfl
    simp only [redirectingWorld, hc, if_pos hlt]

theorem redirectingWorld_readAccepted (n : Nat) (code : StatusCode) (d : Dialer)
    (address : String) (proto : StreamProtocol) (h : List Call) (u : URL)
    (hu : parseAB address = .ok u) (hge : ¬ describeCount h < n) :
    ReadAccepted (redirectingWorld n code) d address proto h u sampleTracks
      { StatusCode := 200, Header := [] } where
  described :=
    { parse := hu
      newConn := rfl
      options := rfl
      describe := by
        have hc : describeCount
            (h ++ [Call.NewConnClient (d.conf u), Call.Options h.length u]) =
            describeCount h := by
          rw [describeCount_append]
          rfl
        simp only [redirectingWorld, hc, if_neg hge] }
  notRedirect := by decide
  setups := by
    by_cases hp : proto = StreamProtocolUDP <;>
      simp [SetupsAccepted, sampleTracks, setupAnswer, hp, redirectingWorld]
  play := rfl

/-- Against the sample server that redirects until it has seen `n` DESCRIBE requests,
`DialRead` follows every remaining redirect: with `m` redirects to go it returns the
connection of its `m + 1`-th dial, and it returns nothing within `m` nested invocations. -/
theorem redirectingWorld_follows (n : Nat) (d : Dialer) (proto : StreamProtocol) :
    ∀ (m : Nat) (h : List Call) (address : String) (u : URL), parseAB address = .ok u →
      describeCount h + m = n →
        (DialRead (redirectingWorld n 302) d (m + 1) address proto h).1 =
            Result.conn (h.length + 4 * m) ∧
          dialCount (DialRead (redirectingWorld n 302) d (m + 1) address proto h).2 =
            dialCount h + (m + 1) ∧
          ∀ fuel, fuel ≤ m →
            (DialRead (redirectingWorld n 302) d fuel address proto h).1 = Result.diverge := by
  intro m
  induction m with
  | zero =>
    intro h address u hu hn
    have ha := redirectingWorld_readAccepted n 302 d address proto h u hu (by omega)
    rw [DialRead_accepted ha 0]
    refine ⟨rfl, ?_, ?_⟩
    · simp only [dialCount_append, dialCount_setups]
      rfl
    · intro fuel hf
      have h0 : fuel = 0 := by omega
      subst h0
      rfl
  | succ m ih =>
    intro h address u hu hn
    have hd := redirectingWorld_described n 302 d address h u hu (by omega)
    have hstep : ∀ fuel, DialRead (redirectingWorld n 302) d (fuel + 1) address proto h =
        DialRead (redirectingWorld n 302) d fuel "rtsp://b/s" proto
          (h ++ [Call.NewConnClient (d.conf u), Call.Options h.length u,
            Call.Describe h.length u, Call.Close h.length]) := by
      intro fuel
      rw [DialRead_of_described hd proto fuel, if_pos (by decide)]
      rfl
    have hcount : describeCount (h ++ [Call.NewConnClient (d.conf u), Call.Options h.length u,
        Call.Describe h.length u, Call.Close h.length]) + m = n := by
      rw [describeCount_append]
      have : describeCount [Call.NewConnClient (d.conf u), Call.Options h.length u,
        Call.Describe h.length u, Call.Close h.length] = 1 := rfl
      omega
    obtain ⟨h1, h2, h3⟩ := ih _ "rtsp://b/s" urlB rfl hcount
    refine ⟨?_, ?_, ?_⟩
    · rw [hstep, h1]
      have hlen : (h ++ [Call.NewConnClient (d.conf u), Call.Options h.length u,
          Call.Describe h.length u, Call.Close h.length]).length + 4 * m =
          h.length + 4 * (m + 1) := by
        simp only [List.length_append, List.length_cons, List.length_nil]
        omega
      exact congrArg Result.conn hlen
    · rw [hstep, h2, dialCount_append]
      have : dialCount [Call.NewConnClient (d.conf u), Call.Options h.length u,
        Call.Describe h.length u, Call.Close h.length] = 1 := rfl
      omega
    · intro fuel hf
      cases fuel with
      | zero => rfl
      | succ f =>
        rw [hstep]
        exact h3 f (by omega)

/-- C1, as the code has it: `DialRead` has no redirect limit. Against a server that answers
the first `n` DESCRIBE requests with a redirect and accepts afterwards, it follows all `n`
redirects, whatever `n` is: it dials `n + 1` times and returns the connection of the last
dial, and it does not return within `n` nested invocations. -/
theorem DialRead_follows_every_redirect (n : Nat) (d : Dialer) (proto : StreamProtocol) :
    (DialRead (redirectingWorld n 302) d (n + 1) "rtsp://a/s" proto []).1 =
        Result.conn (4 * n) ∧
      dialCount (DialRead (redirectingWorld n 302) d (n + 1) "rtsp://a/s" proto []).2 = n + 1 ∧
      ∀ fuel, fuel ≤ n →
        (DialRead (redirectingWorld n 302) d fuel "rtsp://a/s" proto []).1 = Result.diverge := by
  obtain ⟨h1, h2, h3⟩ := redirectingWorld_follows n d proto n [] "rtsp://a/s" urlA rfl
    (by simp [describeCount])
  refine ⟨?_, ?_, h3⟩
  · rw [h1]
    simp
  · rw [h2]
    simp [dialCount]

/-- C1 fails as stated: after six DESCRIBE redirects `DialRead` dials a seventh time and
returns that connection; no error is returned. -/
theorem DialRead_follows_six_redirects :
    (DialRead (redirectingWorld 6 302) DefaultDialer 7 "rtsp://a/s" StreamProtocolUDP []).1 =
        Result.conn 24 ∧
      dialCount
        (DialRead (redirectingWorld 6 302) DefaultDialer 7 "rtsp://a/s" StreamProtocolUDP []).2
        = 7 ∧
      describeCount
        (DialRead (redirectingWorld 6 302) DefaultDialer 7 "rtsp://a/s" StreamProtocolUDP []).2
        = 7 := by
  refine ⟨?_, ?_, ?_⟩ <;> rfl

/-! ## Error paths -/

/-- C9 fails on the code: when `SetupUDP` fails in `DialRead`, the error is returned with the
connection left open (the trace ends with the failed SETUP, no `Close`), whereas the TCP path
of `DialRead` and the UDP path of `DialPublish` close the connection on the same failure. -/
theorem DialRead_setupUDP_error_without_close :
    DialRead setupRejectingWorld DefaultDialer 1 "rtsp://a/s" StreamProtocolUDP [] =
        (Result.error "461 Unsupported Transport",
          [Call.NewConnClient (DefaultDialer.conf urlA), Call.Options 0 urlA,
            Call.Describe 0 urlA,
            Call.SetupUDP 0 urlA TransportModePlay { Id := 0, Media := "video" } 0 0]) ∧
      DialRead setupRejectingWorld DefaultDialer 1 "rtsp://a/s" StreamProtocolTCP [] =
        (Result.error "461 Unsupported Transport",
          [Call.NewConnClient (DefaultDialer.conf urlA), Call.Options 0 urlA,
            Call.Describe 0 urlA,
            Call.SetupTCP 0 urlA TransportModePlay { Id := 0, Media := "video" },
            Call.Close 0]) ∧
      DialPublish setupRejectingWorld DefaultDialer "rtsp://a/s" StreamProtocolUDP
          sampleTracks [] =
        (Result.error "461 Unsupported Transport",
          [Call.NewConnClient (DefaultDialer.conf urlA), Call.Options 0 urlA,
            Call.Announce 0 urlA sampleTracks,
            Call.SetupUDP 0 urlA TransportModeRecord { Id := 0, Media := "video" } 0 0,
            Call.Close 0]) := by
  refine ⟨?_, ?_, ?_⟩ <;> rfl

/-! ## mpegtsEncoder.encode -/

theorem filterLoop_eq (conf : TrackConfigH264) :
    ∀ (nalus : List NALU) (filteredNALUs : List NALU), (∀ n ∈ nalus, n ≠ []) →
      filterLoop conf nalus filteredNALUs =
        some (filteredNALUs ++ nalus.flatMap (keptNALUs conf)) := by
  intro nalus
  induction nalus with
  | nil => intro acc _; simp [filterLoop]
  | cons n ns ih =>
    intro acc hne
    have hns : ∀ m ∈ ns, m ≠ [] := fun m hm => hne m (List.mem_cons_of_mem _ hm)
    cases n with
    | nil => exact absurd rfl (hne [] (List.mem_cons_self _ _))
    | cons b bs =>
      have hty : naluType (b :: bs) = b &&& 0x1F := rfl
      rw [filterLoop]
      simp only [List.flatMap_cons, keptNALUs, hty, NALUTypeSPS, NALUTypePPS,
        NALUTypeAccessUnitDelimiter, NALUTypeIDR]
      split
      · rw [ih _ hns]
        simp
      · split
        · rw [ih _ hns]
          simp
        · rw [ih _ hns]
          simp

theorem idrPresent_eq :
    ∀ (nalus : List NALU), (∀ n ∈ nalus, n ≠ []) →
      ∃ b, idrPresent nalus = some b ∧ (b = true ↔ ∃ n ∈ nalus, naluType n = 5) := by
  intro nalus
  induction nalus with
  | nil => intro _; exact ⟨false, rfl, by simp⟩
  | cons n ns ih =>
    intro hne
    have hns : ∀ m ∈ ns, m ≠ [] := fun m hm => hne m (List.mem_cons_of_mem _ hm)
    cases n with
    | nil => exact absurd rfl (hne [] (List.mem_cons_self _ _))
    | cons b bs =>
      have hty : naluType (b :: bs) = b &&& 0x1F := rfl
      by_cases hb : b &&& 0x1F = 5
      · refine ⟨true, by simp [idrPresent, NALUTypeIDR, hb], ?_⟩
        simp only [true_iff]
        exact ⟨b :: bs, List.mem_cons_self _ _, hty.trans hb⟩
      · obtain ⟨r, hr, hiff⟩ := ih hns
        refine ⟨r, by simp [idrPresent, NALUTypeIDR, hb, hr], ?_⟩
        rw [hiff]
        constructor
        · rintro ⟨m, hm, hm5⟩
          exact ⟨m, List.mem_cons_of_mem _ hm, hm5⟩
        · rintro ⟨m, hm, hm5⟩
          rcases List.mem_cons.mp hm with h1 | h1
          · subst h1
            exact absurd (hty.symm.trans hm5) hb
          · exact ⟨m, h1, hm5⟩

theorem buildPacket_randomAccess (clock90k : Int → Int) (idr : Bool) (pts dts : Int)
    (enc : List Nat) :
    (buildPacket clock90k idr pts dts enc).RandomAccessIndicator = idr := by
  unfold buildPacket
  split <;> rfl

theorem writePacket_calls {δ : Type} (x : Codec δ) (e : mpegtsEncoder δ) (idr : Bool)
    (filteredNALUs : List NALU) (pts : Int) :
    (writePacket x e idr filteredNALUs pts).2.2 =
      match x.EncodeAnnexB filteredNALUs with
      | .error _ => [EncCall.EncodeAnnexB filteredNALUs]
      | .ok enc => [EncCall.EncodeAnnexB filteredNALUs,
          EncCall.Feed (wrapInt64 (pts - e.startPTS)),
          EncCall.WriteData (buildPacket x.clock90k idr (wrapInt64 (pts - e.startPTS))
            (x.Feed e.dtsEst (wrapInt64 (pts - e.startPTS))).1 enc)] := by
  unfold writePacket
  cases x.EncodeAnnexB filteredNALUs with
  | error err => rfl
  | ok enc =>
    simp only
    split <;> rfl

theorem buildPacket_data (clock90k : Int → Int) (idr : Bool) (pts dts : Int)
    (enc : List Nat) :
    (buildPacket clock90k idr pts dts enc).Data = enc := by
  unfold buildPacket
  split <;> rfl

theorem markFirstPacket_conf {δ : Type} (e : mpegtsEncoder δ) (pts : Int) :
    (markFirstPacket e pts).h264Conf = e.h264Conf := by
  unfold markFirstPacket
  split <;> rfl

/-- For non-empty NALUs `encode` does not panic: it reaches the Annex-B encoder with the
filtered list and the IDR flag. -/
theorem encode_of_nonempty {δ : Type} (x : Codec δ) (e : mpegtsEncoder δ)
    (nalus : List NALU) (pts : Int) (hne : ∀ n ∈ nalus, n ≠ []) :
    ∃ idr, (idr = true ↔ ∃ n ∈ nalus, naluType n = 5) ∧
      encode x e nalus pts =
        writePacket x (markFirstPacket e pts) idr
          ([9, 240] :: nalus.flatMap (keptNALUs e.h264Conf)) pts := by
  obtain ⟨b, hb, hiff⟩ := idrPresent_eq nalus hne
  refine ⟨b, hiff, ?_⟩
  unfold encode
  simp only [hb, markFirstPacket_conf, filterLoop_eq e.h264Conf nalus _ hne]
  rfl

/-- C7: for non-empty NALUs, the list that `encode` hands to the Annex-B encoder (its first
call, and its only call of that encoder) is the access unit delimiter `[9, 240]` followed by
the input NALUs in their order, where a NALU of type 7, 8 or 9 is dropped and a NALU of
type 5 is preceded by the configured SPS and PPS, in that order. -/
theorem encode_annexB_input {δ : Type} (x : Codec δ) (e : mpegtsEncoder δ)
    (nalus : List NALU) (pts : Int) (hne : ∀ n ∈ nalus, n ≠ []) :
    ∃ rest, (encode x e nalus pts).2.2 =
        EncCall.EncodeAnnexB ([9, 240] :: nalus.flatMap (keptNALUs e.h264Conf)) :: rest ∧
      ∀ l, EncCall.EncodeAnnexB l ∉ rest := by
  obtain ⟨idr, -, he⟩ := encode_of_nonempty x e nalus pts hne
  rw [he, writePacket_calls]
  cases x.EncodeAnnexB ([9, 240] :: nalus.flatMap (keptNALUs e.h264Conf)) with
  | error err => exact ⟨[], rfl, by simp⟩
  | ok enc => exact ⟨_, rfl, by simp⟩

/-- Witness of C7: an access unit with an AUD, an SPS, an IDR, a non-IDR slice and a second
IDR. -/
theorem encode_annexB_input_witness :
    (∀ n ∈ [[9, 16], [103, 1], [101, 2, 3], [65, 4], [37, 1]], n ≠ ([] : NALU)) ∧
      ∃ rest,
        (encode sampleCodec sampleEncoder [[9, 16], [103, 1], [101, 2, 3], [65, 4], [37, 1]]
          5000).2.2 =
          EncCall.EncodeAnnexB [[9, 240], [103, 66], [104, 206], [101, 2, 3], [65, 4],
            [103, 66], [104, 206], [37, 1]] :: rest ∧
        ∀ l, EncCall.EncodeAnnexB l ∉ rest :=
  ⟨by decide,
    encode_annexB_input sampleCodec sampleEncoder
      [[9, 16], [103, 1], [101, 2, 3], [65, 4], [37, 1]] 5000 (by decide)⟩

/-- C8: for non-empty NALUs, every packet that `encode` hands to the muxer has its
RandomAccessIndicator set if and only if some input NALU has type 5 (IDR); and such a packet
is written, as the last call, whenever the Annex-B encoder succeeds. -/
theorem encode_randomAccess_iff_idr {δ : Type} (x : Codec δ) (e : mpegtsEncoder δ)
    (nalus : List NALU) (pts : Int) (hne : ∀ n ∈ nalus, n ≠ []) :
    (∀ d, EncCall.WriteData d ∈ (encode x e nalus pts).2.2 →
        (d.RandomAccessIndicator = true ↔ ∃ n ∈ nalus, naluType n = 5)) ∧
      (∀ enc, x.EncodeAnnexB ([9, 240] :: nalus.flatMap (keptNALUs e.h264Conf)) = .ok enc →
        ∃ d, (encode x e nalus pts).2.2.getLast? = some (EncCall.WriteData d) ∧
          d.Data = enc) := by
  obtain ⟨idr, hiff, he⟩ := encode_of_nonempty x e nalus pts hne
  rw [he, writePacket_calls]
  cases x.EncodeAnnexB ([9, 240] :: nalus.flatMap (keptNALUs e.h264Conf)) with
  | error err =>
    constructor
    · intro d hd
      simp at hd
    · intro enc henc
      simp at henc
  | ok enc =>
    constructor
    · intro d hd
      simp only [List.mem_cons, List.mem_singleton, EncCall.WriteData.injEq,
        List.not_mem_nil, or_false, false_or, reduceCtorEq] at hd
      rw [hd, buildPacket_randomAccess]
      exact hiff
    · intro enc2 henc
      injection henc with henc
      subst henc
      exact ⟨_, rfl, buildPacket_data _ _ _ _ _⟩

/-- Witness of C8: an access unit with an IDR is written with the RandomAccessIndicator. -/
theorem encode_randomAccess_iff_idr_witness :
    (∀ n ∈ [[9, 16], [101, 2, 3], [65, 4]], n ≠ ([] : NALU)) ∧
      ∀ d, EncCall.WriteData d ∈
          (encode sampleCodec sampleEncoder [[9, 16], [101, 2, 3], [65, 4]] 5000).2.2 →
        (d.RandomAccessIndicator = true ↔
          ∃ n ∈ [[9, 16], [101, 2, 3], [65, 4]], naluType n = 5) :=
  ⟨by decide,
    (encode_randomAccess_iff_idr sampleCodec sampleEncoder [[9, 16], [101, 2, 3], [65, 4]]
      5000 (by decide)).1⟩

end Gortsplib
